import Mathlib

/-!
Shallow embedding of the EJECS IDL front end (lexers and parser) from the
repository DunnoConz/ejecs, together with theorems settling the frozen claims
about it.

The repository contains two lexer implementations and the corresponding
parser:

* an older self-contained lexer (package lexer defining its own TokenType,
  NUMBER tokens and a newToken helper), embedded below in namespace OldLexer;
* the current lexer built on internal/token (INT and FLOAT token kinds,
  string literals, bracket tokens), embedded in namespace Lexer;
* the current recursive-descent parser with a Pratt expression grammar
  (ParseProgram, parseComponent, parseField, parseRelationship, parseSystem,
  parseExpression and friends), embedded in namespace Parser.  It consumes
  the token stream produced by namespace Lexer.

Machine strings are modelled as List Char (Go strings are byte arrays and all
inputs of interest are ASCII); Go ints that only ever grow are modelled as
Nat.  Loops whose termination Go leaves implicit take an explicit fuel
argument; every top-level entry point supplies fuel that is large enough
that the fuel-exhaustion branch is unreachable (each loop iteration consumes
at least one character or one token).
-/

namespace Ejecs

/-- NUL byte: the value Go assigns to l.ch at end of input. -/
def NUL : Char := Char.ofNat 0

/-- Space character (written numerically to keep source text plain ASCII). -/
def SPC : Char := Char.ofNat 32

/-- Tab character. -/
def TAB : Char := Char.ofNat 9

/-- Line feed character. -/
def LF : Char := Char.ofNat 10

/-- Carriage return character. -/
def CR : Char := Char.ofNat 13

/-- Double quote character. -/
def DQ : Char := Char.ofNat 34

/-- Single quote character. -/
def SQ : Char := Char.ofNat 39

/-- Backslash character. -/
def BSL : Char := Char.ofNat 92

/-- isLetter from both lexer implementations (identical in the two files). -/
def isLetter (c : Char) : Bool :=
  ('a' ≤ c && c ≤ 'z') || ('A' ≤ c && c ≤ 'Z') || c = '_'

/-- isDigit from both lexer implementations. -/
def isDigit (c : Char) : Bool :=
  '0' ≤ c && c ≤ '9'

/-- Whitespace test used by skipWhitespace in both lexers. -/
def isWs (c : Char) : Bool :=
  c = SPC || c = TAB || c = LF || c = CR

/-- Token as produced by either lexer: kind string, literal text and
1-based source position, mirroring the Go struct.  Both token structs in the
source (the old lexer's Token and internal/token.Token) have exactly these
four fields. -/
structure Tok where
  type : String
  literal : String
  line : Nat
  column : Nat
deriving Repr, DecidableEq

/-- Lexer state shared by both lexer implementations (the Go structs are
field-for-field identical). -/
structure LexState where
  input : List Char
  position : Nat
  readPosition : Nat
  ch : Char
  line : Nat
  column : Nat
deriving Repr, DecidableEq

/-- readChar, identical in both lexer files: load the byte at readPosition
(or NUL past the end), update line and column, advance the cursor. -/
def readChar (l : LexState) : LexState :=
  let c := if l.readPosition ≥ l.input.length then NUL
           else l.input.getD l.readPosition NUL
  let ln := if c = LF then l.line + 1 else l.line
  let col := if c = LF then 1 else l.column + 1
  ⟨l.input, l.readPosition, l.readPosition + 1, c, ln, col⟩

/-- peekChar, identical in both lexer files. -/
def peekChar (l : LexState) : Char :=
  if l.readPosition ≥ l.input.length then NUL
  else l.input.getD l.readPosition NUL

/-- New, identical in both lexer files: start at line 1, column 1 and read
the first character. -/
def newLexer (input : List Char) : LexState :=
  readChar ⟨input, 0, 0, NUL, 1, 1⟩

/-- Generic character-driven loop: keep calling readChar while the predicate
holds of the current character.  skipWhitespace, comment skipping and the
identifier and digit runs of both lexers are instances of it. -/
def chLoop (P : Char → Bool) : Nat → LexState → LexState
  | 0, l => l
  | fuel+1, l => if P l.ch then chLoop P fuel (readChar l) else l

/-- skipWhitespace, identical in both lexer files. -/
def skipWhitespace (fuel : Nat) (l : LexState) : LexState :=
  chLoop isWs fuel l

/-- skipComment (old lexer) and readComment (current lexer), identical:
consume until end of line or end of input. -/
def skipComment (fuel : Nat) (l : LexState) : LexState :=
  chLoop (fun c => !(c = LF) && !(c = NUL)) fuel l

/-- Literal text between two cursor positions, modelling the Go slice
l.input[a:b]. -/
def sliceLit (input : List Char) (a b : Nat) : String :=
  String.mk ((input.drop a).take (b - a))

end Ejecs

namespace Ejecs.OldLexer

/-! Embedding of the older self-contained lexer (the package that defines
its own TokenType constants, a single NUMBER kind, and the newToken
helper). -/

def ILLEGAL : String := "ILLEGAL"
def EOF : String := "EOF"
def IDENT : String := "IDENT"
def NUMBER : String := "NUMBER"
def STRINGT : String := "STRING"
def COLON : String := ":"
def SEMICOLON : String := ";"
def COMMA : String := ","
def ASTERISK : String := "*"
def DOT : String := "."
def PLUS : String := "+"
def MINUS : String := "-"
def SLASH : String := "/"
def ASSIGN : String := "="
def PLUSEQ : String := "+="
def EQT : String := "=="
def NOT_EQ : String := "!="
def LTT : String := "<"
def LTE : String := "<="
def GTT : String := ">"
def GTE : String := ">="
def ANDT : String := "&&"
def ORT : String := "||"
def LPAREN : String := "("
def RPAREN : String := ")"
def LBRACE : String := "\x7b"
def RBRACE : String := "\x7d"
def AT : String := "@"
def QUESTION : String := "?"
def COMPONENT : String := "component"
def RELATIONSHIP : String := "relationship"
def SYSTEM : String := "system"
def QUERY : String := "query"
def RUNT : String := "run"
def PAIR : String := "pair"
def GET_TARGET : String := "getTarget"

/-- newToken helper: builds a token from a kind and one character.  The Go
struct literal leaves Line and Column at their zero values, so the position
of every token built this way is 0/0. -/
def newToken (tokenType : String) (c : Char) : Tok :=
  ⟨tokenType, String.mk [c], 0, 0⟩

/-- lookupIdent of the old lexer: fixed keyword table, everything else is a
generic identifier. -/
def lookupIdent (ident : String) : String :=
  if ident = "component" then COMPONENT
  else if ident = "relationship" then RELATIONSHIP
  else if ident = "system" then SYSTEM
  else if ident = "query" then QUERY
  else if ident = "run" then RUNT
  else if ident = "pair" then PAIR
  else if ident = "getTarget" then GET_TARGET
  else IDENT

/-- readIdentifier of the old lexer: the first character must be a letter or
underscore, then letters and digits are consumed. -/
def readIdentifier (fuel : Nat) (l : LexState) : String × LexState :=
  let pos0 := l.position
  let lEnd := if isLetter l.ch then
    chLoop (fun c => isLetter c || isDigit c) fuel (readChar l)
  else l
  (sliceLit l.input pos0 lEnd.position, lEnd)

/-- readNumber of the old lexer: a run of digits, then, if the current
character is a dot, the dot and another run of digits; the trailing letter
check in the source returns the same slice in both branches. -/
def readNumber (fuel : Nat) (l : LexState) : String × LexState :=
  let pos0 := l.position
  let l1 := chLoop isDigit fuel l
  let lEnd := if l1.ch = '.' then chLoop isDigit fuel (readChar l1) else l1
  (sliceLit l.input pos0 lEnd.position, lEnd)

/-- NextToken of the old lexer.  The fuel argument only decreases on the
comment branch, which re-invokes NextToken after skipping to end of line;
the character-level loops receive the same fuel.  The fuel-0 fallback is an
ILLEGAL token and is unreachable for the canonical fuel supplied by
nextToken below. -/
def nextTokenF : Nat → LexState → Tok × LexState
  | 0, l => (⟨ILLEGAL, "", l.line, l.column⟩, l)
  | fuel+1, l0 =>
    let l := skipWhitespace fuel l0
    let sl := l.line
    let sc := l.column
    if l.ch = ':' then (newToken COLON l.ch, readChar l)
    else if l.ch = ';' then (newToken SEMICOLON l.ch, readChar l)
    else if l.ch = ',' then (newToken COMMA l.ch, readChar l)
    else if l.ch = '(' then (newToken LPAREN l.ch, readChar l)
    else if l.ch = ')' then (newToken RPAREN l.ch, readChar l)
    else if l.ch = Char.ofNat 123 then (newToken LBRACE l.ch, readChar l)
    else if l.ch = Char.ofNat 125 then (newToken RBRACE l.ch, readChar l)
    else if l.ch = '*' then (newToken ASTERISK l.ch, readChar l)
    else if l.ch = '.' then
      if isDigit (peekChar l) then
        let l1 := readChar l
        let r := readNumber fuel l1
        (⟨NUMBER, "." ++ r.1, sl, sc⟩, r.2)
      else (newToken DOT l.ch, readChar l)
    else if l.ch = '+' then
      if peekChar l = '=' then (⟨PLUSEQ, "+=", 0, 0⟩, readChar (readChar l))
      else (newToken PLUS l.ch, readChar l)
    else if l.ch = '-' then (newToken MINUS l.ch, readChar l)
    else if l.ch = '/' then
      if peekChar l = '/' then nextTokenF fuel (skipComment fuel l)
      else (newToken SLASH l.ch, readChar l)
    else if l.ch = '=' then
      if peekChar l = '=' then (⟨EQT, "==", 0, 0⟩, readChar (readChar l))
      else (newToken ASSIGN l.ch, readChar l)
    else if l.ch = '!' then
      if peekChar l = '=' then (⟨NOT_EQ, "!=", 0, 0⟩, readChar (readChar l))
      else (newToken ILLEGAL l.ch, readChar l)
    else if l.ch = '<' then
      if peekChar l = '=' then (⟨LTE, "<=", 0, 0⟩, readChar (readChar l))
      else (newToken LTT l.ch, readChar l)
    else if l.ch = '>' then
      if peekChar l = '=' then (⟨GTE, ">=", 0, 0⟩, readChar (readChar l))
      else (newToken GTT l.ch, readChar l)
    else if l.ch = '&' then
      if peekChar l = '&' then (⟨ANDT, "&&", 0, 0⟩, readChar (readChar l))
      else (newToken ILLEGAL l.ch, readChar l)
    else if l.ch = '|' then
      if peekChar l = '|' then (⟨ORT, "||", 0, 0⟩, readChar (readChar l))
      else (newToken ILLEGAL l.ch, readChar l)
    else if l.ch = '@' then (newToken AT l.ch, readChar l)
    else if l.ch = '?' then (newToken QUESTION l.ch, readChar l)
    else if l.ch = NUL then (⟨EOF, "", sl, sc⟩, readChar l)
    else if isLetter l.ch then
      let r := readIdentifier fuel l
      (⟨lookupIdent r.1, r.1, sl, sc⟩, r.2)
    else if isDigit l.ch then
      let r := readNumber fuel l
      if isLetter r.2.ch then
        let r2 := readIdentifier fuel r.2
        (⟨IDENT, r.1 ++ r2.1, sl, sc⟩, r2.2)
      else (⟨NUMBER, r.1, sl, sc⟩, r.2)
    else (newToken ILLEGAL l.ch, readChar l)

/-- NextToken with the canonical fuel: input length plus two, enough for any
whitespace run, token body and chain of comment lines. -/
def nextToken (l : LexState) : Tok × LexState :=
  nextTokenF (l.input.length + 2) l

/-- Call NextToken repeatedly until an EOF-kind token appears, collecting
the sequence (EOF token included). -/
def tokenizeF : Nat → LexState → List Tok
  | 0, _ => []
  | fuel+1, l =>
    let r := nextToken l
    if r.1.type = EOF then [r.1] else r.1 :: tokenizeF fuel r.2

/-- Tokenize a whole input with the old lexer. -/
def tokenize (input : List Char) : List Tok :=
  tokenizeF (input.length + 2) (newLexer input)

end Ejecs.OldLexer

namespace Ejecs.TokenTy

/-! Token kind constants from internal/token/token.go.  Names that would
shadow core Lean classes or operators (LT, GT, EQ, AND, OR, IF, IN, FOR)
carry a trailing T; their string values are exactly those of the source. -/

def ILLEGAL : String := "ILLEGAL"
def EOF : String := "EOF"
def IDENT : String := "IDENT"
def INT : String := "INT"
def FLOAT : String := "FLOAT"
def STRINGT : String := "STRING"
def BOOL : String := "BOOL"
def ASSIGN : String := "="
def PLUS : String := "+"
def MINUS : String := "-"
def BANG : String := "!"
def ASTERISK : String := "*"
def SLASH : String := "/"
def LTT : String := "<"
def GTT : String := ">"
def EQT : String := "=="
def NOT_EQ : String := "!="
def LTE : String := "<="
def GTE : String := ">="
def PLUSEQ : String := "+="
def ANDT : String := "&&"
def ORT : String := "||"
def COMMA : String := ","
def SEMICOLON : String := ";"
def COLON : String := ":"
def LPAREN : String := "("
def RPAREN : String := ")"
def LBRACE : String := "\x7b"
def RBRACE : String := "\x7d"
def LBRACKET : String := "["
def RBRACKET : String := "]"
def DOT : String := "."
def AT : String := "@"
def QUESTION : String := "?"
def COMPONENT : String := "component"
def RELATIONSHIP : String := "relationship"
def SYSTEM : String := "system"
def QUERY : String := "query"
def RUNT : String := "run"
def PAIR : String := "pair"
def GET_TARGET : String := "getTarget"
def USING : String := "using"
def FREQUENCY : String := "frequency"
def PRIORITY : String := "priority"
def CODE : String := "code"
def FUNCTION : String := "function"
def LET : String := "let"
def TRUET : String := "true"
def FALSET : String := "false"
def IFT : String := "if"
def ELSET : String := "else"
def RETURNT : String := "return"
def FORT : String := "for"
def INT2 : String := "in"
def WHILET : String := "while"
def BREAKT : String := "break"
def CONTINUET : String := "continue"
def NULLT : String := "null"
def TABLE : String := "table"

end Ejecs.TokenTy

namespace Ejecs.Lexer

/-! Embedding of the current lexer (internal/lexer built on internal/token):
INT versus FLOAT number kinds, string literals with escapes, bracket tokens,
and a keyword map that includes table, frequency, priority, code, pair and
the boolean and nil literals. -/

/-- The keywords map of the lexer file, folded into lookupIdent: a hit
returns the mapped kind, anything else is a generic identifier.  The
explicit IDENT entries of the Go map (parameters and the Roblox type names)
behave identically to the default and are kept for fidelity. -/
def lookupIdent (ident : String) : String :=
  if ident = "component" then TokenTy.COMPONENT
  else if ident = "system" then TokenTy.SYSTEM
  else if ident = "relationship" then TokenTy.RELATIONSHIP
  else if ident = "true" then TokenTy.TRUET
  else if ident = "false" then TokenTy.FALSET
  else if ident = "nil" then TokenTy.NULLT
  else if ident = "query" then TokenTy.QUERY
  else if ident = "parameters" then TokenTy.IDENT
  else if ident = "frequency" then TokenTy.FREQUENCY
  else if ident = "priority" then TokenTy.PRIORITY
  else if ident = "code" then TokenTy.CODE
  else if ident = "pair" then TokenTy.PAIR
  else if ident = "table" then TokenTy.TABLE
  else if ident = "Instance" then TokenTy.IDENT
  else if ident = "Vector2" then TokenTy.IDENT
  else if ident = "Vector3" then TokenTy.IDENT
  else if ident = "CFrame" then TokenTy.IDENT
  else if ident = "Color3" then TokenTy.IDENT
  else if ident = "Enum" then TokenTy.IDENT
  else TokenTy.IDENT

/-- readIdentifier of the current lexer: letters and digits from the start
(no leading-letter guard; callers only enter on a letter). -/
def readIdentifier (fuel : Nat) (l : LexState) : String × LexState :=
  let pos0 := l.position
  let lEnd := chLoop (fun c => isLetter c || isDigit c) fuel l
  (sliceLit l.input pos0 lEnd.position, lEnd)

/-- The loop condition of the current readNumber: a digit, or a dot whose
immediate successor is a digit.  Not a pure character predicate, so it gets
its own fueled loop. -/
def readNumberLoop : Nat → LexState → LexState
  | 0, l => l
  | fuel+1, l =>
    if isDigit l.ch || (l.ch = '.' && isDigit (peekChar l)) then
      readNumberLoop fuel (readChar l)
    else l

/-- readNumber of the current lexer. -/
def readNumber (fuel : Nat) (l : LexState) : String × LexState :=
  let pos0 := l.position
  let lEnd := readNumberLoop fuel l
  (sliceLit l.input pos0 lEnd.position, lEnd)

/-- One escape step of readString: the character substituted for a
backslash-escape; unknown escapes keep the backslash and the character. -/
def escChars (c : Char) : List Char :=
  if c = 'n' then [LF]
  else if c = 't' then [TAB]
  else if c = 'r' then [CR]
  else if c = SQ then [SQ]
  else if c = DQ then [DQ]
  else if c = BSL then [BSL]
  else [BSL, c]

/-- readString of the current lexer: reads characters until the matching
quote or end of input, translating backslash escapes.  Returns the built
value (a strings.Builder in Go, not an input slice). -/
def readString : Nat → Char → List Char → LexState → String × LexState
  | 0, _, acc, l => (String.mk acc, l)
  | fuel+1, quote, acc, l0 =>
    let l := readChar l0
    if l.ch = BSL then
      let l2 := readChar l
      readString fuel quote (acc ++ escChars l2.ch) l2
    else if l.ch = quote || l.ch = NUL then (String.mk acc, l)
    else readString fuel quote (acc ++ [l.ch]) l

/-- NextToken of the current lexer.  Two-character operators build their
literal from the two characters read, exactly as the source does; the fuel
decreases only on the comment branch. -/
def nextTokenF : Nat → LexState → Tok × LexState
  | 0, l => (⟨TokenTy.ILLEGAL, "", l.line, l.column⟩, l)
  | fuel+1, l0 =>
    let l := skipWhitespace fuel l0
    let sl := l.line
    let sc := l.column
    if l.ch = '=' then
      if peekChar l = '=' then
        let l1 := readChar l
        (⟨TokenTy.EQT, String.mk [l.ch, l1.ch], sl, sc⟩, readChar l1)
      else (⟨TokenTy.ASSIGN, String.mk [l.ch], sl, sc⟩, readChar l)
    else if l.ch = '!' then
      if peekChar l = '=' then
        let l1 := readChar l
        (⟨TokenTy.NOT_EQ, String.mk [l.ch, l1.ch], sl, sc⟩, readChar l1)
      else (⟨TokenTy.BANG, String.mk [l.ch], sl, sc⟩, readChar l)
    else if l.ch = '<' then
      if peekChar l = '=' then
        let l1 := readChar l
        (⟨TokenTy.LTE, String.mk [l.ch, l1.ch], sl, sc⟩, readChar l1)
      else (⟨TokenTy.LTT, String.mk [l.ch], sl, sc⟩, readChar l)
    else if l.ch = '>' then
      if peekChar l = '=' then
        let l1 := readChar l
        (⟨TokenTy.GTE, String.mk [l.ch, l1.ch], sl, sc⟩, readChar l1)
      else (⟨TokenTy.GTT, String.mk [l.ch], sl, sc⟩, readChar l)
    else if l.ch = '+' then
      if peekChar l = '=' then
        let l1 := readChar l
        (⟨TokenTy.PLUSEQ, String.mk [l.ch, l1.ch], sl, sc⟩, readChar l1)
      else (⟨TokenTy.PLUS, String.mk [l.ch], sl, sc⟩, readChar l)
    else if l.ch = '&' then
      if peekChar l = '&' then
        let l1 := readChar l
        (⟨TokenTy.ANDT, String.mk [l.ch, l1.ch], sl, sc⟩, readChar l1)
      else (⟨TokenTy.ILLEGAL, String.mk [l.ch], sl, sc⟩, readChar l)
    else if l.ch = '|' then
      if peekChar l = '|' then
        let l1 := readChar l
        (⟨TokenTy.ORT, String.mk [l.ch, l1.ch], sl, sc⟩, readChar l1)
      else (⟨TokenTy.ILLEGAL, String.mk [l.ch], sl, sc⟩, readChar l)
    else if l.ch = '/' then
      if peekChar l = '/' then nextTokenF fuel (skipComment fuel l)
      else (⟨TokenTy.SLASH, String.mk [l.ch], sl, sc⟩, readChar l)
    else if l.ch = '-' then (⟨TokenTy.MINUS, String.mk [l.ch], sl, sc⟩, readChar l)
    else if l.ch = '*' then (⟨TokenTy.ASTERISK, String.mk [l.ch], sl, sc⟩, readChar l)
    else if l.ch = '.' then (⟨TokenTy.DOT, String.mk [l.ch], sl, sc⟩, readChar l)
    else if l.ch = ',' then (⟨TokenTy.COMMA, String.mk [l.ch], sl, sc⟩, readChar l)
    else if l.ch = ';' then (⟨TokenTy.SEMICOLON, String.mk [l.ch], sl, sc⟩, readChar l)
    else if l.ch = ':' then (⟨TokenTy.COLON, String.mk [l.ch], sl, sc⟩, readChar l)
    else if l.ch = '(' then (⟨TokenTy.LPAREN, String.mk [l.ch], sl, sc⟩, readChar l)
    else if l.ch = ')' then (⟨TokenTy.RPAREN, String.mk [l.ch], sl, sc⟩, readChar l)
    else if l.ch = Char.ofNat 123 then (⟨TokenTy.LBRACE, String.mk [l.ch], sl, sc⟩, readChar l)
    else if l.ch = Char.ofNat 125 then (⟨TokenTy.RBRACE, String.mk [l.ch], sl, sc⟩, readChar l)
    else if l.ch = '@' then (⟨TokenTy.AT, String.mk [l.ch], sl, sc⟩, readChar l)
    else if l.ch = '?' then (⟨TokenTy.QUESTION, String.mk [l.ch], sl, sc⟩, readChar l)
    else if l.ch = '[' then (⟨TokenTy.LBRACKET, String.mk [l.ch], sl, sc⟩, readChar l)
    else if l.ch = ']' then (⟨TokenTy.RBRACKET, String.mk [l.ch], sl, sc⟩, readChar l)
    else if l.ch = DQ || l.ch = SQ then
      let r := readString fuel l.ch [] l
      let lEnd := if r.2.ch = DQ || r.2.ch = SQ then readChar r.2 else r.2
      (⟨TokenTy.STRINGT, r.1, sl, sc⟩, lEnd)
    else if l.ch = NUL then (⟨TokenTy.EOF, "", sl, sc⟩, readChar l)
    else if isLetter l.ch then
      let r := readIdentifier fuel l
      (⟨lookupIdent r.1, r.1, sl, sc⟩, r.2)
    else if isDigit l.ch then
      let r := readNumber fuel l
      let ty := if (r.1.toList).contains '.' then TokenTy.FLOAT else TokenTy.INT
      (⟨ty, r.1, sl, sc⟩, r.2)
    else (⟨TokenTy.ILLEGAL, String.mk [l.ch], sl, sc⟩, readChar l)

/-- NextToken with the canonical fuel. -/
def nextToken (l : LexState) : Tok × LexState :=
  nextTokenF (l.input.length + 2) l

/-- Iterated NextToken until an EOF token, collecting the sequence (EOF
token included). -/
def tokenizeF : Nat → LexState → List Tok
  | 0, _ => []
  | fuel+1, l =>
    let r := nextToken l
    if r.1.type = TokenTy.EOF then [r.1] else r.1 :: tokenizeF fuel r.2

/-- Tokenize a whole input with the current lexer; this is the token stream
the parser consumes. -/
def tokenize (input : List Char) : List Tok :=
  tokenizeF (input.length + 2) (newLexer input)

/-- Lexer state after n calls to NextToken, starting from a fresh lexer. -/
def lexStateAt (input : List Char) : Nat → LexState
  | 0 => newLexer input
  | n+1 => (nextToken (lexStateAt input n)).2

/-- The token returned by the n-th call to NextToken (0-based). -/
def tokenAt (input : List Char) (n : Nat) : Tok :=
  (nextToken (lexStateAt input n)).1

end Ejecs.Lexer

namespace Ejecs.Ast

/-! Embedding of internal/ast (the current version consumed by the parser):
expression variants, fields with table key/value types and expression
defaults, and a Program whose Statements list holds the top-level
declarations in source order. -/

/-- Expression nodes: Identifier, StringLiteral, NumberLiteral,
BooleanLiteral, CallExpression, TableConstructor (whose fields are optional
key plus value, TableField in the source), PrefixExpression and
MemberAccessExpression. -/
inductive Expr where
  | ident (value : String)
  | strLit (value : String)
  | numLit (value : String)
  | boolLit (value : Bool)
  | callExpr (function : Expr) (arguments : List Expr)
  | tableCons (fields : List (Option Expr × Expr))
  | prefixExpr (operator : String) (right : Expr)
  | memberAccess (object : Expr) (memberName : String)
deriving Repr

/-- Field of a component: base type name, optional marker, table key and
value type names, and an optional default-value expression (nil in Go
becomes none). -/
structure Field where
  name : String
  type : String
  optional : Bool
  mapKeyType : String
  mapValueType : String
  defaultValue : Option Expr
deriving Repr

/-- System parameter: name, type and optional default expression. -/
structure Parameter where
  name : String
  type : String
  defaultValue : Option Expr
deriving Repr

/-- Relation inside a query: relation type plus component argument. -/
structure Relation where
  type : String
  component : String
deriving Repr

/-- Query: ordered component names plus relations. -/
structure Query where
  components : List String
  relations : List Relation
deriving Repr

/-- Component declaration. -/
structure Component where
  name : String
  fields : List Field
  attributes : List String
deriving Repr

/-- Relationship declaration: optional tag type and the two endpoints. -/
structure Relationship where
  type : String
  name : String
  child : String
  parent : String
deriving Repr

/-- System declaration; parameters and query are nil-able in Go, hence
Option here, and the deprecated Components list is kept (always nil, that
is []). -/
structure SystemDecl where
  name : String
  parameters : Option (List Parameter)
  components : List String
  query : Option Query
  frequency : Option Expr
  priority : Option Expr
  code : String
  line : Nat
  column : Nat
deriving Repr

/-- Top-level AST node. -/
inductive Node where
  | component (c : Component)
  | relationship (r : Relationship)
  | system (s : SystemDecl)
deriving Repr

/-- Program root: statements in source order. -/
structure Program where
  statements : List Node
deriving Repr

end Ejecs.Ast

namespace Ejecs.Parser

/-! Embedding of internal/parser (the ParseProgram version with the Pratt
expression grammar).  The Go parser owns a lexer and a two-token lookahead;
since it interacts with the lexer only through NextToken, it is modelled as
functions over the token list produced by Lexer.tokenize, with the current
token the head of the list and the peek token the second element.  The Go
lexer keeps returning EOF tokens after the end of input; advancing past the
final EOF token of the list is modelled by a padding EOF token (position
0/0; no theorem below depends on the position of a padded token). -/

open Ejecs.Ast

/-- Padding token for reads past the final EOF of the stream. -/
def padTok : Tok := ⟨TokenTy.EOF, "", 0, 0⟩

/-- The parser's curToken. -/
def cur (toks : List Tok) : Tok := toks.headD padTok

/-- The parser's peekToken. -/
def peek (toks : List Tok) : Tok := (toks.drop 1).headD padTok

/-- The parser's nextToken: shift the window one token forward. -/
def advance (toks : List Tok) : List Tok := toks.drop 1

/-- Errors returned by the parser: Error values built by newError and
newErrorf carry a line and column; errors built directly with fmt.Errorf
are plain messages.  renderErr gives the string each renders to. -/
inductive ParseErr where
  | posErr (line column : Nat) (message : String)
  | plainErr (message : String)
deriving Repr, DecidableEq

/-- The Error method of parser.Error renders as
line L, column C: message; fmt.Errorf errors render as the bare message. -/
def renderErr : ParseErr → String
  | .posErr l c m => "line " ++ toString l ++ ", column " ++ toString c ++ ": " ++ m
  | .plainErr m => m

/-- newError: an Error carrying the current token position. -/
def errAt (toks : List Tok) (msg : String) : ParseErr :=
  .posErr (cur toks).line (cur toks).column msg

/-- Fuel-exhaustion marker.  Every loop of the Go parser consumes at least
one token per iteration, and the entry points below supply fuel exceeding
the stream length, so this value is unreachable from them. -/
def fuelErr : ParseErr := .plainErr "out of fuel"

/-- Operator precedence levels (the iota block: LOWEST .. DOT). -/
def LOWEST : Nat := 1
def EQUALS : Nat := 2
def LESSGREATER : Nat := 3
def SUM : Nat := 4
def PRODUCT : Nat := 5
def PREFIXP : Nat := 6
def CALLP : Nat := 7
def INDEXP : Nat := 8
def DOTP : Nat := 9

/-- The precedences map; absent kinds give LOWEST (peekPrecedence and
curPrecedence default). -/
def precedenceOf (t : String) : Nat :=
  if t = TokenTy.EQT then EQUALS
  else if t = TokenTy.NOT_EQ then EQUALS
  else if t = TokenTy.LTT then LESSGREATER
  else if t = TokenTy.GTT then LESSGREATER
  else if t = TokenTy.LTE then LESSGREATER
  else if t = TokenTy.GTE then LESSGREATER
  else if t = TokenTy.PLUS then SUM
  else if t = TokenTy.MINUS then SUM
  else if t = TokenTy.SLASH then PRODUCT
  else if t = TokenTy.ASTERISK then PRODUCT
  else if t = TokenTy.LPAREN then CALLP
  else if t = TokenTy.DOT then DOTP
  else LOWEST

/-- The registered prefix parse functions, as a closed dispatch: IDENT,
INT, FLOAT, STRING, TRUE, FALSE, LBRACE (table constructor), LPAREN
(grouping), MINUS and BANG (unary prefix). -/
inductive PrefixTag where
  | pIdent | pNumber | pString | pBoolean | pTable | pGrouped | pUnary
deriving Repr, DecidableEq

/-- prefixParseFns lookup. -/
def prefixFn (t : String) : Option PrefixTag :=
  if t = TokenTy.IDENT then some .pIdent
  else if t = TokenTy.INT then some .pNumber
  else if t = TokenTy.FLOAT then some .pNumber
  else if t = TokenTy.STRINGT then some .pString
  else if t = TokenTy.TRUET then some .pBoolean
  else if t = TokenTy.FALSET then some .pBoolean
  else if t = TokenTy.LBRACE then some .pTable
  else if t = TokenTy.LPAREN then some .pGrouped
  else if t = TokenTy.MINUS then some .pUnary
  else if t = TokenTy.BANG then some .pUnary
  else none

/-- The registered infix parse functions: LPAREN (call) and DOT (member
access). -/
inductive InfixTag where
  | iCall | iMember
deriving Repr, DecidableEq

/-- infixParseFns lookup. -/
def infixFn (t : String) : Option InfixTag :=
  if t = TokenTy.LPAREN then some .iCall
  else if t = TokenTy.DOT then some .iMember
  else none

mutual

/-- parseExpression: look up the prefix handler for the current token (a
missing handler is a positioned syntax error), parse the left-hand
expression, then run the infix loop.  Every function of this block leaves
the current token on the last token of the parsed expression, except the
table constructor, which (as in the source) advances past its closing
brace. -/
def parseExpression (fuel : Nat) (prec : Nat) (toks : List Tok) :
    Except ParseErr (Expr × List Tok) :=
  match fuel with
  | 0 => .error fuelErr
  | f+1 =>
    match prefixFn (cur toks).type with
    | none =>
      .error (errAt toks ("no prefix parse function for " ++ (cur toks).type ++ " found"))
    | some tag =>
      match applyPrefixFn f tag toks with
      | .error e => .error e
      | .ok (left, toks1) => prattLoop f prec left toks1

/-- The infix loop of parseExpression: while the peek token is not a
semicolon and binds tighter than the caller, consume it as an infix
operator. -/
def prattLoop (fuel : Nat) (prec : Nat) (left : Expr) (toks : List Tok) :
    Except ParseErr (Expr × List Tok) :=
  match fuel with
  | 0 => .error fuelErr
  | f+1 =>
    if (peek toks).type ≠ TokenTy.SEMICOLON ∧ prec < precedenceOf (peek toks).type then
      match infixFn (peek toks).type with
      | none => .ok (left, toks)
      | some tag =>
        match applyInfixFn f tag left (advance toks) with
        | .error e => .error e
        | .ok (left2, toks2) => prattLoop f prec left2 toks2
    else .ok (left, toks)

/-- Dispatch of the registered prefix parse functions.  The literal
handlers return without advancing, exactly as in the source. -/
def applyPrefixFn (fuel : Nat) (tag : PrefixTag) (toks : List Tok) :
    Except ParseErr (Expr × List Tok) :=
  match fuel with
  | 0 => .error fuelErr
  | f+1 =>
    match tag with
    | .pIdent => .ok (.ident (cur toks).literal, toks)
    | .pNumber => .ok (.numLit (cur toks).literal, toks)
    | .pString => .ok (.strLit (cur toks).literal, toks)
    | .pBoolean => .ok (.boolLit ((cur toks).type = TokenTy.TRUET), toks)
    | .pTable => parseTableConstructor f toks
    | .pGrouped => parseGroupedExpression f toks
    | .pUnary => parsePrefixExpression f toks

/-- parsePrefixExpression: record the operator literal, consume it and
parse the operand at PREFIX precedence. -/
def parsePrefixExpression (fuel : Nat) (toks : List Tok) :
    Except ParseErr (Expr × List Tok) :=
  match fuel with
  | 0 => .error fuelErr
  | f+1 =>
    match parseExpression f PREFIXP (advance toks) with
    | .error e => .error e
    | .ok (right, toks1) => .ok (.prefixExpr (cur toks).literal right, toks1)

/-- parseGroupedExpression: consume the opening parenthesis, parse the
inner expression, and require the closing parenthesis via expectPeek. -/
def parseGroupedExpression (fuel : Nat) (toks : List Tok) :
    Except ParseErr (Expr × List Tok) :=
  match fuel with
  | 0 => .error fuelErr
  | f+1 =>
    match parseExpression f LOWEST (advance toks) with
    | .error e => .error e
    | .ok (e, toks1) =>
      if (peek toks1).type = TokenTy.RPAREN then .ok (e, advance toks1)
      else .error (errAt toks1 "expected \x27)\x27 after grouped expression")

/-- parseTableConstructor: an empty pair of braces gives an empty table;
otherwise parse comma-separated table fields (trailing comma allowed) and
require the closing brace, reporting the error at the opening brace. -/
def parseTableConstructor (fuel : Nat) (toks : List Tok) :
    Except ParseErr (Expr × List Tok) :=
  match fuel with
  | 0 => .error fuelErr
  | f+1 =>
    if (peek toks).type = TokenTy.RBRACE then
      .ok (.tableCons [], advance (advance toks))
    else
      match parseTableFieldFn f (advance toks) with
      | .error e => .error e
      | .ok (kv, toks1) =>
        match tableFieldsLoop f [kv] toks1 with
        | .error e => .error e
        | .ok (fields, toks2) =>
          if (cur toks2).type = TokenTy.RBRACE then .ok (.tableCons fields, advance toks2)
          else .error (.posErr (cur toks).line (cur toks).column
            ("expected \x27\x7d\x27 or \x27,\x27 in table constructor, got " ++ (cur toks2).type))

/-- The comma loop of parseTableConstructor. -/
def tableFieldsLoop (fuel : Nat) (fields : List (Option Expr × Expr)) (toks : List Tok) :
    Except ParseErr (List (Option Expr × Expr) × List Tok) :=
  match fuel with
  | 0 => .error fuelErr
  | f+1 =>
    if (cur toks).type = TokenTy.COMMA then
      let toks1 := advance toks
      if (cur toks1).type = TokenTy.RBRACE then .ok (fields, toks1)
      else
        match parseTableFieldFn f toks1 with
        | .error e => .error e
        | .ok (kv, toks2) => tableFieldsLoop f (fields ++ [kv]) toks2
    else .ok (fields, toks)

/-- parseTableField: a bracketed key, an identifier key followed by an
equals sign, or a bare value; the final nextToken of the source (consuming
the last token of the value) is the trailing advance. -/
def parseTableFieldFn (fuel : Nat) (toks : List Tok) :
    Except ParseErr ((Option Expr × Expr) × List Tok) :=
  match fuel with
  | 0 => .error fuelErr
  | f+1 =>
    if (cur toks).type = TokenTy.LBRACKET then
      match parseExpression f LOWEST (advance toks) with
      | .error e => .error e
      | .ok (k, toks1) =>
        if (peek toks1).type = TokenTy.RBRACKET then
          let toks2 := advance toks1
          if (peek toks2).type = TokenTy.ASSIGN then
            let toks3 := advance toks2
            match parseExpression f LOWEST toks3 with
            | .error e => .error e
            | .ok (v, toks4) => .ok ((some k, v), advance toks4)
          else .error (errAt toks2 "expected \x27=\x27 after table key expression")
        else .error (errAt toks1 "expected \x27]\x27 after table key expression")
    else if (cur toks).type = TokenTy.IDENT ∧ (peek toks).type = TokenTy.ASSIGN then
      match parseExpression f LOWEST (advance (advance toks)) with
      | .error e => .error e
      | .ok (v, toks1) => .ok ((some (.ident (cur toks).literal), v), advance toks1)
    else
      match parseExpression f LOWEST toks with
      | .error e => .error e
      | .ok (v, toks1) => .ok ((none, v), advance toks1)

/-- Dispatch of the registered infix parse functions. -/
def applyInfixFn (fuel : Nat) (tag : InfixTag) (left : Expr) (toks : List Tok) :
    Except ParseErr (Expr × List Tok) :=
  match fuel with
  | 0 => .error fuelErr
  | f+1 =>
    match tag with
    | .iCall =>
      match parseExpressionList f TokenTy.RPAREN toks with
      | .error e => .error e
      | .ok (args, toks1) => .ok (.callExpr left args, toks1)
    | .iMember => parseMemberAccessExpression f left toks

/-- parseExpressionList: comma-separated expressions until the end token,
which expectPeek must find. -/
def parseExpressionList (fuel : Nat) (endT : String) (toks : List Tok) :
    Except ParseErr (List Expr × List Tok) :=
  match fuel with
  | 0 => .error fuelErr
  | f+1 =>
    if (peek toks).type = endT then .ok ([], advance toks)
    else
      match parseExpression f LOWEST (advance toks) with
      | .error e => .error e
      | .ok (e, toks1) =>
        match exprListLoop f [e] toks1 with
        | .error e => .error e
        | .ok (list, toks2) =>
          if (peek toks2).type = endT then .ok (list, advance toks2)
          else .error (errAt toks2 ("expected \x27" ++ endT ++ "\x27 to end expression list"))

/-- The comma loop of parseExpressionList. -/
def exprListLoop (fuel : Nat) (acc : List Expr) (toks : List Tok) :
    Except ParseErr (List Expr × List Tok) :=
  match fuel with
  | 0 => .error fuelErr
  | f+1 =>
    if (peek toks).type = TokenTy.COMMA then
      match parseExpression f LOWEST (advance (advance toks)) with
      | .error e => .error e
      | .ok (e, toks1) => exprListLoop f (acc ++ [e]) toks1
    else .ok (acc, toks)

/-- parseMemberAccessExpression: a dot then a member identifier, on which
the current token stays. -/
def parseMemberAccessExpression (fuel : Nat) (left : Expr) (toks : List Tok) :
    Except ParseErr (Expr × List Tok) :=
  match fuel with
  | 0 => .error fuelErr
  | _+1 =>
    if (cur toks).type = TokenTy.DOT then
      let toks1 := advance toks
      if (cur toks1).type = TokenTy.IDENT then
        .ok (.memberAccess left (cur toks1).literal, toks1)
      else .error (errAt toks1 "expected identifier after \x27.\x27")
    else .error (errAt toks "expected \x27.\x27 for member access")

end

/-- The "find the semicolon" scan at the end of parseField: skip forward
until the current token is a semicolon or EOF. -/
def skipToSemicolon : List Tok → List Tok
  | [] => []
  | t :: rest =>
    if t.type = TokenTy.SEMICOLON ∨ t.type = TokenTy.EOF then t :: rest
    else skipToSemicolon rest

/-- The tail of parseField shared by both field forms: the optional
equals-sign default value, the forward scan to the semicolon, and the
consumption of the semicolon.  base is the field built so far (its
defaultValue is none, the Go nil). -/
def fieldFinish (fuel : Nat) (base : Field) (toks : List Tok) :
    Except ParseErr (Field × List Tok) :=
  let step : Except ParseErr (Option Expr × List Tok) :=
    if (cur toks).type = TokenTy.ASSIGN then
      match parseExpression fuel LOWEST (advance toks) with
      | .error e => .error e
      | .ok (dv, toks1) => .ok (some dv, toks1)
    else .ok (none, toks)
  match step with
  | .error e => .error e
  | .ok (dv, toks1) =>
    let toks2 := skipToSemicolon toks1
    if (cur toks2).type = TokenTy.SEMICOLON then
      .ok (⟨base.name, base.type, base.optional, base.mapKeyType, base.mapValueType, dv⟩,
        advance toks2)
    else
      .error (errAt toks2
        ("missing \x27;\x27 after field definition for field \x27" ++ base.name ++ "\x27"))

/-- parseField: a table type with its generic key/value pair, or a plain
type identifier with an optional question mark, then the field name, then
the shared default-value and semicolon logic.  The fmt.Println debug output
of the table branch has no effect on the result and is not modelled. -/
def parseField (fuel : Nat) (toks : List Tok) :
    Except ParseErr (Field × List Tok) :=
  if (cur toks).type = TokenTy.TABLE then
    let toks1 := advance toks
    if (cur toks1).type = TokenTy.LTT then
      let toks2 := advance toks1
      if (cur toks2).type = TokenTy.IDENT ∨ (cur toks2).type = TokenTy.STRINGT then
        let keyT := (cur toks2).literal
        let toks3 := advance toks2
        if (cur toks3).type = TokenTy.COMMA then
          let toks4 := advance toks3
          if (cur toks4).type = TokenTy.IDENT then
            let valT := (cur toks4).literal
            let toks5 := advance toks4
            if (cur toks5).type = TokenTy.GTT then
              let toks6 := advance toks5
              if (cur toks6).type = TokenTy.IDENT then
                fieldFinish fuel ⟨(cur toks6).literal, "table", false, keyT, valT, none⟩
                  (advance toks6)
              else .error (errAt toks6
                ("expected field name after table type, got " ++ (cur toks6).type))
            else .error (errAt toks5
              ("expected \x27>\x27 after table value type, got " ++ (cur toks5).type))
          else .error (errAt toks4
            ("expected table value type (identifier), got " ++ (cur toks4).type))
        else .error (errAt toks3
          ("expected \x27,\x27 between table key and value types, got " ++ (cur toks3).type))
      else .error (errAt toks2
        ("expected table key type (identifier or string), got " ++ (cur toks2).type))
    else .error (errAt toks1
      ("expected \x27<\x27 after table keyword, got " ++ (cur toks1).type))
  else if (cur toks).type = TokenTy.IDENT then
    let ftype := (cur toks).literal
    let opt := (peek toks).type = TokenTy.QUESTION
    let toksA := if (peek toks).type = TokenTy.QUESTION then advance toks else toks
    let toks1 := advance toksA
    if (cur toks1).type = TokenTy.IDENT then
      fieldFinish fuel ⟨(cur toks1).literal, ftype, opt, "", "", none⟩ (advance toks1)
    else .error (errAt toks1 ("expected field name, got " ++ (cur toks1).type))
  else .error (errAt toks
    ("expected field type (identifier or \x27table\x27), got " ++ (cur toks).type))

/-- The field loop of parseComponent: parse fields until the closing brace
or EOF. -/
def fieldsLoop (fuel : Nat) (acc : List Field) (toks : List Tok) :
    Except ParseErr (List Field × List Tok) :=
  match fuel with
  | 0 => .error fuelErr
  | f+1 =>
    if (cur toks).type = TokenTy.RBRACE ∨ (cur toks).type = TokenTy.EOF then
      .ok (acc, toks)
    else
      match parseField f toks with
      | .error e => .error e
      | .ok (fld, toks1) => fieldsLoop f (acc ++ [fld]) toks1

/-- parseComponent: the component keyword, the component name, the opening
brace, the fields, and the closing brace (left for the top-level loop to
consume). -/
def parseComponent (fuel : Nat) (toks : List Tok) :
    Except ParseErr (Component × List Tok) :=
  let toks1 := advance toks
  if (cur toks1).type = TokenTy.IDENT then
    let name := (cur toks1).literal
    let toks2 := advance toks1
    if (cur toks2).type = TokenTy.LBRACE then
      match fieldsLoop fuel [] (advance toks2) with
      | .error e => .error e
      | .ok (fields, toks3) =>
        if (cur toks3).type = TokenTy.RBRACE then .ok (⟨name, fields, []⟩, toks3)
        else .error (errAt toks3
          ("expected \x27\x7d\x27 to close component, got " ++ (cur toks3).type))
    else .error (errAt toks2 ("expected \x27\x7b\x27, got " ++ (cur toks2).type))
  else .error (errAt toks1 ("expected component name, got " ++ (cur toks1).type))

/-- parseRelationship: optional leading at-tag, the relationship keyword,
the name, and the fixed child/parent body.  Every error of this function is
built with fmt.Errorf in the source, hence plainErr: these errors carry no
line/column prefix. -/
def parseRelationship (toks : List Tok) :
    Except ParseErr (Relationship × List Tok) :=
  let rtype := if (cur toks).type = TokenTy.AT then (cur (advance toks)).literal else ""
  let toks0 := if (cur toks).type = TokenTy.AT then advance (advance toks) else toks
  if (cur toks0).type = TokenTy.RELATIONSHIP then
    let toks1 := advance toks0
    if (cur toks1).type = TokenTy.IDENT then
      let name := (cur toks1).literal
      let toks2 := advance toks1
      if (cur toks2).type = TokenTy.LBRACE then
        let toks3 := advance toks2
        if (cur toks3).type = TokenTy.IDENT ∧ (cur toks3).literal = "child" then
          let toks4 := advance toks3
          if (cur toks4).type = TokenTy.COLON then
            let toks5 := advance toks4
            if (cur toks5).type = TokenTy.IDENT then
              let child := (cur toks5).literal
              let toks6 := advance toks5
              if (cur toks6).type = TokenTy.IDENT ∧ (cur toks6).literal = "parent" then
                let toks7 := advance toks6
                if (cur toks7).type = TokenTy.COLON then
                  let toks8 := advance toks7
                  if (cur toks8).type = TokenTy.IDENT then
                    let parent := (cur toks8).literal
                    let toks9 := advance toks8
                    if (cur toks9).type = TokenTy.RBRACE then
                      .ok (⟨rtype, name, child, parent⟩, toks9)
                    else .error (.plainErr ("expected \x27\x7d\x27, got " ++ (cur toks9).type))
                  else .error (.plainErr ("expected identifier, got " ++ (cur toks8).type))
                else .error (.plainErr ("expected \x27:\x27, got " ++ (cur toks7).type))
              else .error (.plainErr ("expected \x27parent\x27, got " ++ (cur toks6).type))
            else .error (.plainErr ("expected identifier, got " ++ (cur toks5).type))
          else .error (.plainErr ("expected \x27:\x27, got " ++ (cur toks4).type))
        else .error (.plainErr ("expected \x27child\x27, got " ++ (cur toks3).type))
      else .error (.plainErr ("expected \x27\x7b\x27, got " ++ (cur toks2).type))
    else .error (.plainErr ("expected identifier, got " ++ (cur toks1).type))
  else .error (.plainErr ("expected \x27relationship\x27, got " ++ (cur toks0).type))

/-- parseRelationCall: a relation entry of a query, of the shape
relationType(Component). -/
def parseRelationCall (toks : List Tok) :
    Except ParseErr (Relation × List Tok) :=
  if (cur toks).type = TokenTy.IDENT then
    let rty := (cur toks).literal
    let toks1 := advance toks
    if (cur toks1).type = TokenTy.LPAREN then
      let toks2 := advance toks1
      if (cur toks2).type = TokenTy.IDENT then
        let comp := (cur toks2).literal
        let toks3 := advance toks2
        if (cur toks3).type = TokenTy.RPAREN then .ok (⟨rty, comp⟩, advance toks3)
        else .error (errAt toks3
          ("expected \x27)\x27 after relation component name, got " ++ (cur toks3).type))
      else .error (errAt toks2
        ("expected component name inside relation parentheses, got " ++ (cur toks2).type))
    else .error (errAt toks1
      ("expected \x27(\x27 after relation type, got " ++ (cur toks1).type))
  else .error (errAt toks
    ("expected relation type identifier, got " ++ (cur toks).type))

/-- The entry loop of parseQueryContent: identifiers are components, an
identifier followed by an opening parenthesis is a relation call, and each
entry is followed by a comma or the closing parenthesis. -/
def queryLoop (fuel : Nat) (comps : List String) (rels : List Relation) (toks : List Tok) :
    Except ParseErr (Query × List Tok) :=
  match fuel with
  | 0 => .error fuelErr
  | f+1 =>
    if (cur toks).type = TokenTy.RPAREN ∨ (cur toks).type = TokenTy.EOF then
      .ok (⟨comps, rels⟩, toks)
    else
      let step : Except ParseErr (List String × List Relation × List Tok) :=
        if (cur toks).type = TokenTy.IDENT then
          if (peek toks).type = TokenTy.LPAREN then
            match parseRelationCall toks with
            | .error e => .error e
            | .ok (rel, toks1) => .ok (comps, rels ++ [rel], toks1)
          else .ok (comps ++ [(cur toks).literal], rels, advance toks)
        else .error (errAt toks
          ("expected component name or relation type in query, got " ++ (cur toks).type))
      match step with
      | .error e => .error e
      | .ok (comps1, rels1, toks1) =>
        if (cur toks1).type = TokenTy.COMMA then queryLoop f comps1 rels1 (advance toks1)
        else if (cur toks1).type = TokenTy.RPAREN then queryLoop f comps1 rels1 toks1
        else .error (errAt toks1
          ("expected \x27,\x27 or \x27)\x27 in query, got " ++ (cur toks1).type))

/-- parseQueryContent: the comma-separated entries between the query
parentheses, stopping at the closing parenthesis. -/
def parseQueryContent (fuel : Nat) (toks : List Tok) :
    Except ParseErr (Query × List Tok) :=
  queryLoop fuel [] [] toks

/-- isWordToken: token kinds treated as words by the code-block spacing
heuristic. -/
def isWordToken (t : Tok) : Bool :=
  t.type = TokenTy.IDENT ∨ t.type = TokenTy.INT ∨ t.type = TokenTy.FLOAT ∨
  t.type = TokenTy.STRINGT ∨ t.type = TokenTy.TRUET ∨ t.type = TokenTy.FALSET ∨
  t.type = TokenTy.COMPONENT ∨ t.type = TokenTy.SYSTEM ∨ t.type = TokenTy.RELATIONSHIP ∨
  t.type = TokenTy.QUERY ∨ t.type = TokenTy.FREQUENCY ∨ t.type = TokenTy.PRIORITY ∨
  t.type = TokenTy.RETURNT ∨ t.type = TokenTy.FUNCTION ∨ t.type = TokenTy.IFT ∨
  t.type = TokenTy.ELSET ∨ t.type = TokenTy.FORT ∨ t.type = TokenTy.WHILET

/-- shouldAddSpace: whether the code-block reconstruction inserts a space
between two adjacent tokens. -/
def shouldAddSpace (c p : Tok) : Bool :=
  if p.type = TokenTy.RBRACE then false
  else if p.type = TokenTy.DOT ∨ p.type = TokenTy.COMMA ∨ p.type = TokenTy.SEMICOLON ∨
      p.type = TokenTy.COLON ∨ p.type = TokenTy.LPAREN ∨ p.type = TokenTy.RPAREN ∨
      p.type = TokenTy.LBRACKET ∨ p.type = TokenTy.RBRACKET ∨ p.type = TokenTy.LBRACE then
    false
  else if c.type = TokenTy.DOT ∨ c.type = TokenTy.LPAREN ∨ c.type = TokenTy.LBRACKET ∨
      c.type = TokenTy.LBRACE ∨ c.type = TokenTy.AT then
    false
  else isWordToken c && isWordToken p

/-- parseCodeBlock: join the token literals until the closing brace (or
EOF) with heuristic spacing.  The newErrorf the source creates on hitting
EOF is discarded there (the error value is not returned and the errors list
is not consulted by ParseProgram), so it does not appear in the result. -/
def parseCodeBlock : List Tok → String × List Tok
  | [] => ("", [])
  | t :: rest =>
    if t.type = TokenTy.RBRACE ∨ t.type = TokenTy.EOF then ("", t :: rest)
    else
      let sp := if shouldAddSpace t (cur rest) then " " else ""
      let r := parseCodeBlock rest
      (t.literal ++ sp ++ r.1, r.2)

/-- The parameter loop of parseParametersBlock. -/
def paramsLoop (fuel : Nat) (acc : List Parameter) (toks : List Tok) :
    Except ParseErr (List Parameter × List Tok) :=
  match fuel with
  | 0 => .error fuelErr
  | f+1 =>
    if (cur toks).type = TokenTy.RBRACE ∨ (cur toks).type = TokenTy.EOF then
      .ok (acc, toks)
    else if (cur toks).type = TokenTy.IDENT then
      let pty := (cur toks).literal
      let toks1 := advance toks
      if (cur toks1).type = TokenTy.IDENT then
        let pname := (cur toks1).literal
        let toks2 := advance toks1
        let step : Except ParseErr (Option Expr × List Tok) :=
          if (cur toks2).type = TokenTy.ASSIGN then
            match parseExpression f LOWEST (advance toks2) with
            | .error e => .error e
            | .ok (dv, toks3) => .ok (some dv, advance toks3)
          else .ok (none, toks2)
        match step with
        | .error e => .error e
        | .ok (dv, toks4) =>
          if (cur toks4).type = TokenTy.SEMICOLON then
            paramsLoop f (acc ++ [⟨pname, pty, dv⟩]) (advance toks4)
          else .error (errAt toks4
            ("expected \x27;\x27 after parameter definition, got " ++ (cur toks4).type ++
              " (\x22" ++ (cur toks4).literal ++ "\x22)"))
      else .error (errAt toks1 ("expected parameter name, got " ++ (cur toks1).type))
    else .error (errAt toks ("expected parameter type, got " ++ (cur toks).type))

/-- parseParametersBlock: the params identifier, an opening brace, the
type/name/default parameter entries, and the closing brace. -/
def parseParametersBlock (fuel : Nat) (toks : List Tok) :
    Except ParseErr (List Parameter × List Tok) :=
  let toks1 := advance toks
  if (cur toks1).type = TokenTy.LBRACE then
    match paramsLoop fuel [] (advance toks1) with
    | .error e => .error e
    | .ok (ps, toks2) =>
      if (cur toks2).type = TokenTy.RBRACE then .ok (ps, advance toks2)
      else .error (errAt toks2
        ("expected \x27\x7d\x27 to close params block, got " ++ (cur toks2).type))
  else .error (errAt toks1
    ("expected \x27\x7b\x27 to start params block, got " ++ (cur toks1).type))

/-- Mutable locals of the parseSystem block loop. -/
structure SysAcc where
  parameters : Option (List Parameter)
  query : Option Query
  frequency : Option Expr
  priority : Option Expr
  code : String
  codeParsed : Bool

/-- The block loop of parseSystem: query(...), a params block, frequency
and priority expressions, and one code block, each at most once. -/
def sysLoop (fuel : Nat) (acc : SysAcc) (toks : List Tok) :
    Except ParseErr (SysAcc × List Tok) :=
  match fuel with
  | 0 => .error fuelErr
  | f+1 =>
    if (cur toks).type = TokenTy.RBRACE ∨ (cur toks).type = TokenTy.EOF then
      .ok (acc, toks)
    else if (cur toks).type = TokenTy.QUERY then
      if acc.query.isSome then .error (errAt toks "duplicate query block")
      else
        let toks1 := advance toks
        if (cur toks1).type = TokenTy.LPAREN then
          match parseQueryContent f (advance toks1) with
          | .error e => .error e
          | .ok (q, toks2) =>
            if (cur toks2).type = TokenTy.RPAREN then
              sysLoop f ⟨acc.parameters, some q, acc.frequency, acc.priority,
                acc.code, acc.codeParsed⟩ (advance toks2)
            else .error (errAt toks2
              ("expected \x27)\x27 to close query, got " ++ (cur toks2).type))
        else .error (errAt toks1
          ("expected \x27(\x27 after query keyword, got " ++ (cur toks1).type))
    else if (cur toks).type = TokenTy.IDENT then
      if (cur toks).literal = "params" then
        if acc.parameters.isSome then .error (errAt toks "duplicate params block")
        else
          match parseParametersBlock f toks with
          | .error e => .error e
          | .ok (ps, toks1) =>
            sysLoop f ⟨some ps, acc.query, acc.frequency, acc.priority,
              acc.code, acc.codeParsed⟩ toks1
      else .error (errAt toks
        ("unexpected identifier \x27" ++ (cur toks).literal ++ "\x27 in system body"))
    else if (cur toks).type = TokenTy.FREQUENCY then
      if acc.frequency.isSome then .error (errAt toks "duplicate frequency definition")
      else
        let toks1 := advance toks
        if (cur toks1).type = TokenTy.COLON then
          match parseExpression f LOWEST (advance toks1) with
          | .error e => .error e
          | .ok (e, toks2) =>
            sysLoop f ⟨acc.parameters, acc.query, some e, acc.priority,
              acc.code, acc.codeParsed⟩ (advance toks2)
        else .error (errAt toks1
          ("expected \x27:\x27 after frequency, got " ++ (cur toks1).type))
    else if (cur toks).type = TokenTy.PRIORITY then
      if acc.priority.isSome then .error (errAt toks "duplicate priority definition")
      else
        let toks1 := advance toks
        if (cur toks1).type = TokenTy.COLON then
          match parseExpression f LOWEST (advance toks1) with
          | .error e => .error e
          | .ok (e, toks2) =>
            sysLoop f ⟨acc.parameters, acc.query, acc.frequency, some e,
              acc.code, acc.codeParsed⟩ (advance toks2)
        else .error (errAt toks1
          ("expected \x27:\x27 after priority, got " ++ (cur toks1).type))
    else if (cur toks).type = TokenTy.LBRACE then
      if acc.codeParsed then .error (errAt toks "multiple code blocks found in system")
      else
        let r := parseCodeBlock (advance toks)
        if (cur r.2).type = TokenTy.RBRACE then
          sysLoop f ⟨acc.parameters, acc.query, acc.frequency, acc.priority,
            r.1, true⟩ (advance r.2)
        else .error (errAt r.2
          ("expected \x27\x7d\x27 to close code block, got " ++ (cur r.2).type))
    else .error (errAt toks
      ("unexpected token " ++ (cur toks).type ++ " in system body"))

/-- parseSystem: the system keyword (position recorded for the name error),
the system name, the opening brace, the block loop, and the closing brace
(left for the top-level loop to consume). -/
def parseSystem (fuel : Nat) (toks : List Tok) :
    Except ParseErr (SystemDecl × List Tok) :=
  let startLine := (cur toks).line
  let startCol := (cur toks).column
  let toks1 := advance toks
  if (cur toks1).type = TokenTy.IDENT then
    let name := (cur toks1).literal
    let nline := (cur toks1).line
    let ncol := (cur toks1).column
    let toks2 := advance toks1
    if (cur toks2).type = TokenTy.LBRACE then
      match sysLoop fuel ⟨none, none, none, none, "", false⟩ (advance toks2) with
      | .error e => .error e
      | .ok (acc, toks3) =>
        if (cur toks3).type = TokenTy.RBRACE then
          .ok (⟨name, acc.parameters, [], acc.query, acc.frequency, acc.priority,
            acc.code, nline, ncol⟩, toks3)
        else .error (errAt toks3
          ("expected \x27\x7d\x27 to close system body, got " ++ (cur toks3).type))
    else .error (errAt toks2
      ("expected \x27\x7b\x27 after system name, got " ++ (cur toks2).type))
  else .error (.posErr startLine startCol
    ("expected system name after \x27system\x27 keyword, got " ++ (cur toks1).type))

/-- The top-level loop of ParseProgram: dispatch on the current token kind;
component, relationship (also entered on a leading at-sign, after checking
that an identifier follows it) and system declarations are parsed, and any
other leading token is the fatal plain unexpected-token error built with
fmt.Errorf. -/
def parseProgramLoop (fuel : Nat) (toks : List Tok) :
    Except ParseErr (List Node) :=
  if (cur toks).type = TokenTy.EOF then .ok []
  else if (cur toks).type = TokenTy.COMPONENT then
    match parseComponent fuel toks with
    | .error e => .error e
    | .ok (c, toks1) =>
      match fuel with
      | 0 => .error fuelErr
      | f+1 =>
        match parseProgramLoop f (advance toks1) with
        | .error e => .error e
        | .ok ns => .ok (.component c :: ns)
  else if (cur toks).type = TokenTy.RELATIONSHIP ∨ (cur toks).type = TokenTy.AT then
    if (cur toks).type = TokenTy.AT ∧ (peek toks).type ≠ TokenTy.IDENT then
      .error (errAt toks
        ("expected identifier after @ for relationship type, got " ++ (peek toks).type))
    else
      match parseRelationship toks with
      | .error e => .error e
      | .ok (r, toks1) =>
        match fuel with
        | 0 => .error fuelErr
        | f+1 =>
          match parseProgramLoop f (advance toks1) with
          | .error e => .error e
          | .ok ns => .ok (.relationship r :: ns)
  else if (cur toks).type = TokenTy.SYSTEM then
    match parseSystem fuel toks with
    | .error e => .error e
    | .ok (s, toks1) =>
      match fuel with
      | 0 => .error fuelErr
      | f+1 =>
        match parseProgramLoop f (advance toks1) with
        | .error e => .error e
        | .ok ns => .ok (.system s :: ns)
  else .error (.plainErr ("unexpected token " ++ (cur toks).type))

/-- ParseProgram on a source text: build a lexer, pull the token stream,
and run the top-level loop.  The fuel exceeds anything the loops can
consume for this stream. -/
def parseProgram (input : List Char) : Except ParseErr Program :=
  let toks := Lexer.tokenize input
  match parseProgramLoop (4 * toks.length + 16) toks with
  | .error e => .error e
  | .ok ns => .ok ⟨ns⟩

end Ejecs.Parser

namespace Ejecs

/-- Well-formedness of a lexer state, established by readChar and preserved
ever after: readPosition is one past position, and ch is the character under
the cursor (NUL past the end). -/
def wf (l : LexState) : Prop :=
  l.readPosition = l.position + 1 ∧ l.ch = (l.input.drop l.position).headD NUL

/-- An input with no NUL byte; the Go lexers use the NUL value of ch as
their end-of-input sentinel. -/
def NULfree (input : List Char) : Prop :=
  ∀ c ∈ input, c ≠ NUL

/-- A lexer state whose cursor is at or past the end of its input. -/
def atEnd (l : LexState) : Prop :=
  wf l ∧ l.input.length ≤ l.position

end Ejecs

namespace Ejecs.OldLexer

/-- The punctuation and operator token kinds of the old lexer: the kinds
whose tokens are built by the newToken helper or by the two-character
operator struct literals. -/
def punctOpTypes : List String :=
  [COLON, SEMICOLON, COMMA, LPAREN, RPAREN, LBRACE, RBRACE, ASTERISK, DOT,
   PLUS, MINUS, SLASH, ASSIGN, PLUSEQ, EQT, NOT_EQ, LTT, LTE, GTT, GTE,
   ANDT, ORT, AT, QUESTION]

/-- A token that, if it is of a punctuation or operator kind, carries the
zeroed position. -/
def PunctZero (t : Tok) : Prop :=
  t.type ∈ punctOpTypes → t.line = 0 ∧ t.column = 0

end Ejecs.OldLexer

namespace Ejecs

/-- C5: tokenizing the exact string
component Position (brace) x: number; y: number; (brace)
with repeated next_token calls yields exactly COMPONENT, IDENT(Position),
LBRACE, IDENT(x), COLON, IDENT(number), SEMICOLON, IDENT(y), COLON,
IDENT(number), SEMICOLON, RBRACE, EOF, and nothing else.  Proved for both
lexer implementations: the current internal/token lexer and the old
self-contained lexer produce the same kind/literal sequence here. -/
theorem C5_theorem :
    (Lexer.tokenize ("component Position \x7b x: number; y: number; \x7d".toList)).map
        (fun t => (t.type, t.literal)) =
      [(TokenTy.COMPONENT, "component"), (TokenTy.IDENT, "Position"),
       (TokenTy.LBRACE, "\x7b"), (TokenTy.IDENT, "x"), (TokenTy.COLON, ":"),
       (TokenTy.IDENT, "number"), (TokenTy.SEMICOLON, ";"),
       (TokenTy.IDENT, "y"), (TokenTy.COLON, ":"), (TokenTy.IDENT, "number"),
       (TokenTy.SEMICOLON, ";"), (TokenTy.RBRACE, "\x7d"), (TokenTy.EOF, "")] ∧
    (OldLexer.tokenize ("component Position \x7b x: number; y: number; \x7d".toList)).map
        (fun t => (t.type, t.literal)) =
      [(OldLexer.COMPONENT, "component"), (OldLexer.IDENT, "Position"),
       (OldLexer.LBRACE, "\x7b"), (OldLexer.IDENT, "x"), (OldLexer.COLON, ":"),
       (OldLexer.IDENT, "number"), (OldLexer.SEMICOLON, ";"),
       (OldLexer.IDENT, "y"), (OldLexer.COLON, ":"), (OldLexer.IDENT, "number"),
       (OldLexer.SEMICOLON, ";"), (OldLexer.RBRACE, "\x7d"), (OldLexer.EOF, "")] := by
  exact ⟨by decide, by decide⟩

/-- C1, counterexample: parsing the exact source of the claim,
component Position (brace) x: number; y: number = 10.5; (brace),
with the top-level parse function does not produce a Component at all: the
field grammar of the parser is type-before-name, so the colon after x is a
fatal expected-field-name error and no Program is returned. -/
theorem C1_counterexample :
    Parser.parseProgram ("component Position \x7b x: number; y: number = 10.5; \x7d".toList) =
      .error (.posErr 1 24 "expected field name, got :") := by
  rfl

/-- C1, amended: with the field syntax the parser actually implements
(type before name, as its own test suite writes it), parsing
component Position (brace) number x; number y = 10.5; (brace)
succeeds and produces a Component named Position with exactly two fields,
where field x has no default and field y has a NumberLiteral 10.5
default. -/
theorem C1_theorem :
    Parser.parseProgram ("component Position \x7b number x; number y = 10.5; \x7d".toList) =
      .ok ⟨[.component ⟨"Position",
        [⟨"x", "number", false, "", "", none⟩,
         ⟨"y", "number", false, "", "", some (.numLit "10.5")⟩], []⟩]⟩ := by
  rfl

/-- C3, counterexample: the current internal/token lexer does not fold a
digit run glued to letters into one identifier token: 60hz lexes as an INT
token 60 followed by a separate IDENT token hz. -/
theorem C3_counterexample :
    (Lexer.tokenize ("60hz".toList)).map (fun t => (t.type, t.literal)) =
      [(TokenTy.INT, "60"), (TokenTy.IDENT, "hz"), (TokenTy.EOF, "")] := by
  decide

/-- C6, counterexample: the current internal/token lexer does not treat a
leading dot followed by a digit as a float start: .89 lexes as a DOT token
followed by an INT token 89. -/
theorem C6_counterexample :
    (Lexer.tokenize (".89".toList)).map (fun t => (t.type, t.literal)) =
      [(TokenTy.DOT, "."), (TokenTy.INT, "89"), (TokenTy.EOF, "")] := by
  decide

/-- C8, counterexample: on an input containing a NUL byte the lexer is not
idempotent after EOF: for the two-byte input NUL a, the first next_token
call returns an EOF token (the NUL byte is the end-of-input sentinel value)
and the very next call returns an IDENT token a. -/
theorem C8_counterexample :
    (Lexer.tokenAt [NUL, 'a'] 0).type = TokenTy.EOF ∧
    (Lexer.tokenAt [NUL, 'a'] 1).type = TokenTy.IDENT ∧
    (Lexer.tokenAt [NUL, 'a'] 1).literal = "a" := by
  exact ⟨by decide, by decide, by decide⟩

/-- C7, counterexample: not every parser error renders as
line L, column C: message.  All errors of relationship parsing are built
with fmt.Errorf: parsing relationship 123 returns the bare message
expected identifier, got INT, with no line and column prefix. -/
theorem C7_counterexample :
    Parser.parseProgram ("relationship 123".toList) =
      .error (.plainErr "expected identifier, got INT") ∧
    Parser.renderErr (.plainErr "expected identifier, got INT") =
      "expected identifier, got INT" ∧
    ("expected identifier, got INT".toList.take 5 ≠ "line ".toList) := by
  exact ⟨by rfl, rfl, by decide⟩

/-- C7, amended: errors constructed through the parser Error type (the
newError and newErrorf helpers) render exactly as
line L, column C: message, and this is the end-to-end format of, for
example, the component-name error; but the top-level unexpected-token error
and all relationship-parsing errors are plain fmt.Errorf values whose
rendering is the bare message. -/
theorem C7_theorem :
    (∀ (l c : Nat) (m : String), Parser.renderErr (.posErr l c m) =
      "line " ++ toString l ++ ", column " ++ toString c ++ ": " ++ m) ∧
    Parser.parseProgram ("component 5".toList) =
      .error (.posErr 1 12 "expected component name, got INT") ∧
    Parser.renderErr (.posErr 1 12 "expected component name, got INT") =
      "line 1, column 12: expected component name, got INT" := by
  exact ⟨fun _ _ _ => rfl, by rfl, by rfl⟩

end Ejecs

namespace Ejecs

/-- C2: for every input whose first token is neither component, nor
relationship, nor the at-sign, nor system, and is not EOF, the top-level
parse function fails immediately with the unexpected-token error and
returns no Program: the dispatch loop has no recovery default. -/
theorem C2_theorem (input : List Char) (t : Tok) (rest : List Tok)
    (htok : Lexer.tokenize input = t :: rest)
    (h1 : t.type ≠ TokenTy.EOF) (h2 : t.type ≠ TokenTy.COMPONENT)
    (h3 : t.type ≠ TokenTy.RELATIONSHIP) (h4 : t.type ≠ TokenTy.AT)
    (h5 : t.type ≠ TokenTy.SYSTEM) :
    Parser.parseProgram input = .error (.plainErr ("unexpected token " ++ t.type)) := by
  unfold Parser.parseProgram
  rw [htok]
  show (match Parser.parseProgramLoop (4 * (t :: rest).length + 16) (t :: rest) with
    | Except.error e => (Except.error e : Except Parser.ParseErr Ast.Program)
    | Except.ok ns => Except.ok (⟨ns⟩ : Ast.Program)) = _
  unfold Parser.parseProgramLoop
  have hcur : Parser.cur (t :: rest) = t := rfl
  rw [hcur]
  rw [if_neg h1, if_neg h2]
  rw [if_neg (by rintro (h | h); exact h3 h; exact h4 h)]
  rw [if_neg h5]

/-- C2, witness: the input 123 starts with an INT token, and parsing it
fails with the unexpected-token error. -/
theorem C2_witness :
    Parser.parseProgram ("123".toList) =
      .error (.plainErr ("unexpected token " ++ TokenTy.INT)) := by
  have h := C2_theorem ("123".toList) ⟨TokenTy.INT, "123", 1, 2⟩
    [⟨TokenTy.EOF, "", 1, 5⟩] (by decide) (by decide) (by decide) (by decide) (by decide)
    (by decide)
  exact h

/-- C4: for every choice of identifier tokens K, V and name, a field
written table&lt;K,V&gt; name; parses to a Field whose Type is table, whose
MapKeyType is the literal of K and whose MapValueType is the literal of V,
with the rest of the stream untouched; the positions and literals of the
punctuation tokens are irrelevant. -/
theorem C4_theorem (fuel : Nat) (t1 t2 t3 t4 t5 t6 t7 t8 : Tok) (rest : List Tok)
    (h1 : t1.type = TokenTy.TABLE) (h2 : t2.type = TokenTy.LTT)
    (h3 : t3.type = TokenTy.IDENT) (h4 : t4.type = TokenTy.COMMA)
    (h5 : t5.type = TokenTy.IDENT) (h6 : t6.type = TokenTy.GTT)
    (h7 : t7.type = TokenTy.IDENT) (h8 : t8.type = TokenTy.SEMICOLON) :
    Parser.parseField fuel (t1 :: t2 :: t3 :: t4 :: t5 :: t6 :: t7 :: t8 :: rest) =
      .ok (⟨t7.literal, "table", false, t3.literal, t5.literal, none⟩, rest) := by
  unfold Parser.parseField Parser.fieldFinish
  simp +decide [Parser.cur, Parser.advance, Parser.peek, Parser.skipToSemicolon,
    h1, h2, h3, h4, h5, h6, h7, h8]

/-- C4, witness: a concrete table field, table&lt;string, any&gt; inventory;,
parses to the Field (inventory, table, string, any). -/
theorem C4_witness :
    Parser.parseField 0
      [⟨TokenTy.TABLE, "table", 1, 1⟩, ⟨TokenTy.LTT, "<", 1, 6⟩,
       ⟨TokenTy.IDENT, "string", 1, 7⟩, ⟨TokenTy.COMMA, ",", 1, 13⟩,
       ⟨TokenTy.IDENT, "any", 1, 15⟩, ⟨TokenTy.GTT, ">", 1, 18⟩,
       ⟨TokenTy.IDENT, "inventory", 1, 20⟩, ⟨TokenTy.SEMICOLON, ";", 1, 29⟩] =
      .ok (⟨"inventory", "table", false, "string", "any", none⟩, []) := by
  exact C4_theorem 0 _ _ _ _ _ _ _ _ [] rfl rfl rfl rfl rfl rfl rfl rfl

end Ejecs

namespace Ejecs

/-- A whitespace character is one of space, tab, line feed, carriage
return. -/
theorem ws_cases (c : Char) (h : isWs c = true) :
    c = SPC ∨ c = TAB ∨ c = LF ∨ c = CR := by
  simpa [isWs, or_assoc] using h

/-- Letters are not whitespace. -/
theorem not_ws_of_letter (c : Char) (h : isLetter c = true) : isWs c = false := by
  cases hw : isWs c
  · rfl
  · rcases ws_cases c hw with rfl | rfl | rfl | rfl <;> exact absurd h (by decide)

/-- Digits are not whitespace. -/
theorem not_ws_of_digit (c : Char) (h : isDigit c = true) : isWs c = false := by
  cases hw : isWs c
  · rfl
  · rcases ws_cases c hw with rfl | rfl | rfl | rfl <;> exact absurd h (by decide)

/-- A letter differs from any non-letter character. -/
theorem ne_of_isLetter (c x : Char) (h : isLetter c = true) (hx : isLetter x = false) :
    c ≠ x := by
  intro he; rw [he] at h; rw [h] at hx; cases hx

/-- A digit differs from any non-digit character. -/
theorem ne_of_isDigit (c x : Char) (h : isDigit c = true) (hx : isDigit x = false) :
    c ≠ x := by
  intro he; rw [he] at h; rw [h] at hx; cases hx

/-- Letters are not digits (the ASCII letter ranges lie above the digit
range, and the underscore is not a digit). -/
theorem not_digit_of_letter (c : Char) (h : isLetter c = true) : isDigit c = false := by
  cases hd : isDigit c
  · rfl
  · exfalso
    simp only [isLetter, Bool.or_eq_true, Bool.and_eq_true, decide_eq_true_eq] at h
    simp only [isDigit, Bool.and_eq_true, decide_eq_true_eq] at hd
    rcases h with (⟨h1, _⟩ | ⟨h1, _⟩) | rfl
    · exact absurd (le_trans h1 hd.2) (by decide)
    · exact absurd (le_trans h1 hd.2) (by decide)
    · exact absurd hd (by decide)

/-- Digits are not letters. -/
theorem not_letter_of_digit (c : Char) (h : isDigit c = true) : isLetter c = false := by
  cases hl : isLetter c
  · rfl
  · rw [not_digit_of_letter c hl] at h; cases h

/-- headD of a dropped list is getD at the drop index. -/
theorem dropHeadD (xs : List Char) (p : Nat) (d : Char) :
    (xs.drop p).headD d = xs.getD p d := by
  induction xs generalizing p with
  | nil => cases p <;> rfl
  | cons x xs ih =>
    cases p with
    | zero => rfl
    | succ p => simpa using ih p

/-- readChar establishes well-formedness unconditionally. -/
theorem wf_readChar (l : LexState) : wf (readChar l) := by
  refine ⟨rfl, ?_⟩
  show (if l.readPosition ≥ l.input.length then NUL else l.input.getD l.readPosition NUL) =
    (l.input.drop l.readPosition).headD NUL
  split
  · rw [List.drop_eq_nil_of_le (by omega)]; rfl
  · rw [dropHeadD]

/-- readChar never changes the input. -/
theorem readChar_input (l : LexState) : (readChar l).input = l.input := rfl

/-- readChar advances position to readPosition. -/
theorem readChar_position (l : LexState) : (readChar l).position = l.readPosition := rfl

/-- A chLoop whose predicate fails at the current character is the
identity. -/
theorem chLoop_nop (P : Char → Bool) (f : Nat) (l : LexState) (h : P l.ch = false) :
    chLoop P f l = l := by
  cases f with
  | zero => rfl
  | succ f => simp [chLoop, h]

/-- chLoop never changes the input. -/
theorem chLoop_input (P : Char → Bool) (f : Nat) (l : LexState) :
    (chLoop P f l).input = l.input := by
  induction f generalizing l with
  | zero => rfl
  | succ f ih =>
    show (if P l.ch then chLoop P f (readChar l) else l).input = l.input
    split
    · rw [ih, readChar_input]
    · rfl

/-- chLoop preserves well-formedness. -/
theorem chLoop_wf (P : Char → Bool) (f : Nat) (l : LexState) (h : wf l) :
    wf (chLoop P f l) := by
  induction f generalizing l with
  | zero => exact h
  | succ f ih =>
    show wf (if P l.ch then chLoop P f (readChar l) else l)
    split
    · exact ih (readChar l) (wf_readChar l)
    · exact h

/-- Running chLoop over a run of characters satisfying the predicate, up to
a character that fails it: the cursor advances exactly past the run. -/
theorem chLoop_run (P : Char → Bool) (run rest : List Char) :
    ∀ (f : Nat) (l : LexState), wf l →
    l.input.drop l.position = run ++ rest →
    (∀ c ∈ run, P c = true) → P (rest.headD NUL) = false →
    run.length ≤ f →
    wf (chLoop P f l) ∧ (chLoop P f l).input = l.input ∧
    (chLoop P f l).position = l.position + run.length ∧
    (chLoop P f l).ch = rest.headD NUL := by
  induction run with
  | nil =>
    intro f l hwf hdrop _ hstop _
    have hch : l.ch = rest.headD NUL := by rw [hwf.2, hdrop]; rfl
    have hnop : chLoop P f l = l := chLoop_nop P f l (by rw [hch]; exact hstop)
    rw [hnop]
    exact ⟨hwf, rfl, by simp, hch⟩
  | cons c run ih =>
    intro f l hwf hdrop hrun hstop hf
    have hch : l.ch = c := by rw [hwf.2, hdrop]; rfl
    obtain ⟨f, rfl⟩ : ∃ g, f = g + 1 :=
      ⟨f - 1, by simp only [List.length_cons] at hf; omega⟩
    have hstep : chLoop P (f+1) l = chLoop P f (readChar l) := by
      simp [chLoop, hch, hrun c (by simp)]
    rw [hstep]
    have hdrop2 : (readChar l).input.drop (readChar l).position = run ++ rest := by
      rw [readChar_input, readChar_position, hwf.1]
      have : l.input.drop (l.position + 1) = (l.input.drop l.position).drop 1 := by
        rw [List.drop_drop]
      rw [this, hdrop]
      rfl
    have hres := ih f (readChar l) (wf_readChar l) hdrop2
      (fun x hx => hrun x (by simp [hx]))
      hstop (by simp only [List.length_cons] at hf; omega)
    refine ⟨hres.1, ?_, ?_, hres.2.2.2⟩
    · rw [hres.2.1, readChar_input]
    · rw [hres.2.2.1, readChar_position, hwf.1]
      simp only [List.length_cons]
      omega

end Ejecs

namespace Ejecs

/-- Slicing from a position to that position plus the length of a known
prefix of the remaining input yields exactly that prefix. -/
theorem sliceLit_run (input : List Char) (pos : Nat) (run rest : List Char)
    (h : input.drop pos = run ++ rest) :
    sliceLit input pos (pos + run.length) = String.mk run := by
  unfold sliceLit
  rw [Nat.add_sub_cancel_left, h, List.take_left]

/-- The peek character is the second character of the remaining input. -/
theorem peekChar_second (l : LexState) (c0 c1 : Char) (rest : List Char)
    (hwf : wf l) (hdrop : l.input.drop l.position = c0 :: c1 :: rest) :
    peekChar l = c1 := by
  have hlen : l.position + 1 < l.input.length := by
    have := congrArg List.length hdrop
    simp only [List.length_drop, List.length_cons] at this
    omega
  unfold peekChar
  rw [hwf.1, if_neg (by omega), ← dropHeadD]
  have h2 : l.input.drop (l.position + 1) = (l.input.drop l.position).drop 1 := by
    rw [List.drop_drop, Nat.add_comm]
  rw [h2, hdrop]
  rfl

end Ejecs

namespace Ejecs.OldLexer

/-- readNumber of the old lexer on a digit run not followed by a dot:
returns exactly the digit run and advances past it. -/
theorem readNumber_run (f : Nat) (l : LexState) (ds rest : List Char)
    (hwf : wf l) (hdrop : l.input.drop l.position = ds ++ rest)
    (hds : ∀ c ∈ ds, isDigit c = true)
    (hstop : isDigit (rest.headD NUL) = false) (hdot : rest.headD NUL ≠ '.')
    (hf : ds.length ≤ f) :
    (readNumber f l).1 = String.mk ds ∧
    wf (readNumber f l).2 ∧ (readNumber f l).2.input = l.input ∧
    (readNumber f l).2.position = l.position + ds.length ∧
    (readNumber f l).2.ch = rest.headD NUL := by
  have h1 := Ejecs.chLoop_run isDigit ds rest f l hwf hdrop hds hstop hf
  have hne : (chLoop isDigit f l).ch ≠ '.' := by rw [h1.2.2.2]; exact hdot
  simp only [readNumber]
  rw [if_neg hne]
  refine ⟨?_, h1.1, h1.2.1, h1.2.2.1, h1.2.2.2⟩
  rw [h1.2.2.1]
  exact Ejecs.sliceLit_run l.input l.position ds rest hdrop

/-- readIdentifier of the old lexer on a letter followed by an
alphanumeric run: returns the full run and advances past it. -/
theorem readIdentifier_run (f : Nat) (l : LexState) (a : Char) (as rest : List Char)
    (hwf : wf l) (hdrop : l.input.drop l.position = (a :: as) ++ rest)
    (ha : isLetter a = true)
    (has : ∀ c ∈ as, (isLetter c || isDigit c) = true)
    (hstop : (isLetter (rest.headD NUL) || isDigit (rest.headD NUL)) = false)
    (hf : as.length ≤ f) :
    (readIdentifier f l).1 = String.mk (a :: as) ∧
    wf (readIdentifier f l).2 ∧ (readIdentifier f l).2.input = l.input ∧
    (readIdentifier f l).2.position = l.position + (a :: as).length ∧
    (readIdentifier f l).2.ch = rest.headD NUL := by
  have hch : l.ch = a := by rw [hwf.2, hdrop]; rfl
  have hdrop2 : (readChar l).input.drop (readChar l).position = as ++ rest := by
    rw [Ejecs.readChar_input, Ejecs.readChar_position, hwf.1]
    rw [show l.input.drop (l.position + 1) = (l.input.drop l.position).drop 1 from by
      rw [List.drop_drop, Nat.add_comm]]
    rw [hdrop]
    rfl
  have h1 := Ejecs.chLoop_run (fun c => isLetter c || isDigit c) as rest f (readChar l)
    (Ejecs.wf_readChar l) hdrop2 has hstop hf
  simp only [readIdentifier]
  rw [if_pos (by rw [hch]; exact ha)]
  have hpos : (chLoop (fun c => isLetter c || isDigit c) f (readChar l)).position =
      l.position + (a :: as).length := by
    rw [h1.2.2.1, Ejecs.readChar_position, hwf.1]
    simp only [List.length_cons]
    omega
  refine ⟨?_, h1.1, ?_, hpos, h1.2.2.2⟩
  · rw [hpos]
    exact Ejecs.sliceLit_run l.input l.position (a :: as) rest hdrop
  · rw [h1.2.1, Ejecs.readChar_input]

end Ejecs.OldLexer

namespace Ejecs

/-- Dropping a sum of positions drops in two steps. -/
theorem drop_add (xs : List Char) (p k : Nat) :
    xs.drop (p + k) = (xs.drop p).drop k := by
  rw [List.drop_drop, Nat.add_comm]

/-- C3, amended: in the old self-contained lexer, whenever the cursor
stands on a run of digits immediately followed by a letter-led
alphanumeric run, NextToken returns one single token of the generic
identifier kind whose literal is the whole digits-plus-letters run,
carrying the position at which the run starts.  (The current
internal/token lexer instead splits such input into a number token and a
separate identifier token; see the counterexample.) -/
theorem C3_theorem (f : Nat) (l : LexState) (d a : Char) (ds as rest : List Char)
    (hwf : wf l)
    (hdrop : l.input.drop l.position = (d :: ds) ++ ((a :: as) ++ rest))
    (hd : isDigit d = true) (hds : ∀ c ∈ ds, isDigit c = true)
    (ha : isLetter a = true)
    (has : ∀ c ∈ as, (isLetter c || isDigit c) = true)
    (hstop : (isLetter (rest.headD NUL) || isDigit (rest.headD NUL)) = false)
    (hf : ds.length + as.length + 2 ≤ f) :
    (OldLexer.nextTokenF (f+1) l).1 =
      ⟨OldLexer.IDENT, String.mk ((d :: ds) ++ (a :: as)), l.line, l.column⟩ := by
  have hch : l.ch = d := by rw [hwf.2, hdrop]; rfl
  have hdl : isDigit l.ch = true := by rw [hch]; exact hd
  have hskip : skipWhitespace f l = l :=
    chLoop_nop isWs f l (not_ws_of_digit l.ch hdl)
  have hne : ∀ x : Char, isDigit x = false → ¬(l.ch = x) :=
    fun x hx => ne_of_isDigit l.ch x hdl hx
  have hrn := OldLexer.readNumber_run f l (d :: ds) ((a :: as) ++ rest) hwf hdrop
    (by intro c hc; rcases List.mem_cons.mp hc with rfl | hc; exact hd; exact hds c hc)
    (by show isDigit a = false; exact not_digit_of_letter a ha)
    (by show a ≠ '.'; exact ne_of_isLetter a '.' ha (by decide))
    (by simp only [List.length_cons]; omega)
  have hri := OldLexer.readIdentifier_run f (OldLexer.readNumber f l).2 a as rest
    hrn.2.1
    (by rw [hrn.2.2.1, hrn.2.2.2.1, drop_add, hdrop]
        exact List.drop_left (d :: ds) ((a :: as) ++ rest))
    ha has hstop (by omega)
  simp only [OldLexer.nextTokenF, hskip]
  rw [if_neg (hne ':' (by decide)), if_neg (hne ';' (by decide)),
    if_neg (hne ',' (by decide)), if_neg (hne '(' (by decide)),
    if_neg (hne ')' (by decide)), if_neg (hne (Char.ofNat 123) (by decide)),
    if_neg (hne (Char.ofNat 125) (by decide)), if_neg (hne '*' (by decide)),
    if_neg (hne '.' (by decide)), if_neg (hne '+' (by decide)),
    if_neg (hne '-' (by decide)), if_neg (hne '/' (by decide)),
    if_neg (hne '=' (by decide)), if_neg (hne '!' (by decide)),
    if_neg (hne '<' (by decide)), if_neg (hne '>' (by decide)),
    if_neg (hne '&' (by decide)), if_neg (hne '|' (by decide)),
    if_neg (hne '@' (by decide)), if_neg (hne '?' (by decide)),
    if_neg (hne NUL (by decide))]
  rw [if_neg (by rw [hch]; rw [not_letter_of_digit d hd]; exact Bool.false_ne_true)]
  rw [if_pos hdl]
  rw [if_pos (by rw [hrn.2.2.2.2]; show isLetter a = true; exact ha)]
  rw [hrn.1, hri.1]
  rfl

/-- C3, witness: for the input 60hz, the first NextToken call of the old
lexer returns the single IDENT token 60hz (recorded at line 1; the column
is 2 because the constructor pre-reads the first character). -/
theorem C3_witness :
    (OldLexer.nextTokenF 11 (newLexer ("60hz".toList))).1 =
      ⟨OldLexer.IDENT, "60hz", 1, 2⟩ := by
  have h := C3_theorem 10 (newLexer ("60hz".toList)) '6' 'h' ['0'] ['z'] []
    ⟨rfl, rfl⟩ (by decide) (by decide) (by decide) (by decide) (by decide)
    (by decide) (by decide)
  exact h

end Ejecs

namespace Ejecs

/-- readNumber of the old lexer on a digit run whose maximal extent is
followed by a dot: the dot and the following (possibly empty) digit run
are consumed too, and the returned literal is digits-dot-digits. -/
theorem readNumber_frac_run (f : Nat) (l : LexState) (d : Char) (ds es rest : List Char)
    (hwf : wf l)
    (hdrop : l.input.drop l.position = (d :: ds) ++ ('.' :: (es ++ rest)))
    (hd : isDigit d = true) (hds : ∀ c ∈ ds, isDigit c = true)
    (hes : ∀ c ∈ es, isDigit c = true)
    (hstop : isDigit (rest.headD NUL) = false)
    (hf : ds.length + es.length + 2 ≤ f) :
    (OldLexer.readNumber f l).1 = String.mk ((d :: ds) ++ '.' :: es) ∧
    wf (OldLexer.readNumber f l).2 ∧
    (OldLexer.readNumber f l).2.input = l.input ∧
    (OldLexer.readNumber f l).2.position = l.position + ds.length + es.length + 2 ∧
    (OldLexer.readNumber f l).2.ch = rest.headD NUL := by
  have h1 := chLoop_run isDigit (d :: ds) ('.' :: (es ++ rest)) f l hwf hdrop
    (by intro c hc; rcases List.mem_cons.mp hc with rfl | hc; exact hd; exact hds c hc)
    (by rfl) (by simp only [List.length_cons]; omega)
  have hch1 : (chLoop isDigit f l).ch = '.' := by rw [h1.2.2.2]; rfl
  have hdrop2 : (readChar (chLoop isDigit f l)).input.drop
      (readChar (chLoop isDigit f l)).position = es ++ rest := by
    rw [readChar_input, readChar_position, h1.1.1, h1.2.1, h1.2.2.1]
    rw [show l.position + (d :: ds).length + 1 = l.position + ((d :: ds).length + 1) from by
      omega]
    rw [drop_add, hdrop]
    rw [show (d :: ds) ++ ('.' :: (es ++ rest)) = ((d :: ds) ++ ['.']) ++ (es ++ rest) from by
      simp]
    rw [show (d :: ds).length + 1 = ((d :: ds) ++ ['.']).length from by simp]
    exact List.drop_left _ _
  have h2 := chLoop_run isDigit es rest f (readChar (chLoop isDigit f l))
    (wf_readChar _) hdrop2 hes hstop (by omega)
  have hpos : (chLoop isDigit f (readChar (chLoop isDigit f l))).position =
      l.position + ((d :: ds) ++ '.' :: es).length := by
    rw [h2.2.2.1, readChar_position, h1.1.1, h1.2.2.1]
    simp only [List.length_append, List.length_cons]
    omega
  simp only [OldLexer.readNumber]
  rw [if_pos hch1]
  refine ⟨?_, h2.1, ?_, ?_, h2.2.2.2⟩
  · rw [hpos]
    exact sliceLit_run l.input l.position ((d :: ds) ++ '.' :: es) rest
      (by rw [List.append_assoc]; exact hdrop)
  · rw [h2.2.1, readChar_input, h1.2.1]
  · rw [hpos]
    simp only [List.length_append, List.length_cons]
    omega

/-- C6, amended: in the old self-contained lexer, whenever the cursor
stands on a dot whose immediate successor is a digit, NextToken returns a
single NUMBER token whose literal starts with the dot, rather than a DOT
token followed by an integer token.  The two conjuncts cover every such
position exhaustively: take the maximal digit run after the dot; either
the character stopping it is not a second dot (first conjunct, literal
dot-digits), or it is, and readNumber also consumes the second dot and the
possibly empty digit run after it (second conjunct, literal
dot-digits-dot-digits).  (The current internal/token lexer always returns
a DOT token there; see the counterexample.) -/
theorem C6_theorem :
    (∀ (f : Nat) (l : LexState) (d : Char) (ds rest : List Char),
      wf l → l.input.drop l.position = '.' :: ((d :: ds) ++ rest) →
      isDigit d = true → (∀ c ∈ ds, isDigit c = true) →
      isDigit (rest.headD NUL) = false → rest.headD NUL ≠ '.' →
      ds.length + 2 ≤ f →
      (OldLexer.nextTokenF (f+1) l).1 =
        ⟨OldLexer.NUMBER, "." ++ String.mk (d :: ds), l.line, l.column⟩) ∧
    (∀ (f : Nat) (l : LexState) (d : Char) (ds es rest : List Char),
      wf l → l.input.drop l.position = '.' :: ((d :: ds) ++ ('.' :: (es ++ rest))) →
      isDigit d = true → (∀ c ∈ ds, isDigit c = true) →
      (∀ c ∈ es, isDigit c = true) →
      isDigit (rest.headD NUL) = false →
      ds.length + es.length + 2 ≤ f →
      (OldLexer.nextTokenF (f+1) l).1 =
        ⟨OldLexer.NUMBER, "." ++ String.mk ((d :: ds) ++ '.' :: es), l.line, l.column⟩) := by
  constructor
  · intro f l d ds rest hwf hdrop hd hds hstop hdot hf
    have hch : l.ch = '.' := by rw [hwf.2, hdrop]; rfl
    have hskip : skipWhitespace f l = l :=
      chLoop_nop isWs f l (by rw [hch]; decide)
    have hpeek : peekChar l = d :=
      peekChar_second l '.' d (ds ++ rest) hwf (by rw [hdrop]; rfl)
    have hdrop2 : (readChar l).input.drop (readChar l).position = (d :: ds) ++ rest := by
      rw [readChar_input, readChar_position, hwf.1]
      rw [show l.input.drop (l.position + 1) = (l.input.drop l.position).drop 1 from by
        rw [List.drop_drop, Nat.add_comm]]
      rw [hdrop]
      rfl
    have hrn := OldLexer.readNumber_run f (readChar l) (d :: ds) rest (wf_readChar l)
      hdrop2
      (by intro c hc; rcases List.mem_cons.mp hc with rfl | hc; exact hd; exact hds c hc)
      hstop hdot (by simp only [List.length_cons]; omega)
    simp only [OldLexer.nextTokenF, hskip]
    rw [if_neg (by rw [hch]; decide), if_neg (by rw [hch]; decide),
      if_neg (by rw [hch]; decide), if_neg (by rw [hch]; decide),
      if_neg (by rw [hch]; decide), if_neg (by rw [hch]; decide),
      if_neg (by rw [hch]; decide), if_neg (by rw [hch]; decide)]
    rw [if_pos hch]
    rw [if_pos (by rw [hpeek]; exact hd)]
    rw [hrn.1]
  · intro f l d ds es rest hwf hdrop hd hds hes hstop hf
    have hch : l.ch = '.' := by rw [hwf.2, hdrop]; rfl
    have hskip : skipWhitespace f l = l :=
      chLoop_nop isWs f l (by rw [hch]; decide)
    have hpeek : peekChar l = d :=
      peekChar_second l '.' d (ds ++ ('.' :: (es ++ rest))) hwf (by rw [hdrop]; rfl)
    have hdrop2 : (readChar l).input.drop (readChar l).position =
        (d :: ds) ++ ('.' :: (es ++ rest)) := by
      rw [readChar_input, readChar_position, hwf.1]
      rw [show l.input.drop (l.position + 1) = (l.input.drop l.position).drop 1 from by
        rw [List.drop_drop, Nat.add_comm]]
      rw [hdrop]
      rfl
    have hrn := readNumber_frac_run f (readChar l) d ds es rest (wf_readChar l)
      hdrop2 hd hds hes hstop hf
    simp only [OldLexer.nextTokenF, hskip]
    rw [if_neg (by rw [hch]; decide), if_neg (by rw [hch]; decide),
      if_neg (by rw [hch]; decide), if_neg (by rw [hch]; decide),
      if_neg (by rw [hch]; decide), if_neg (by rw [hch]; decide),
      if_neg (by rw [hch]; decide), if_neg (by rw [hch]; decide)]
    rw [if_pos hch]
    rw [if_pos (by rw [hpeek]; exact hd)]
    rw [hrn.1]

/-- C6, witness: for the input .89, the first NextToken call of the old
lexer returns the single NUMBER token .89, and for the input .1.2 it
returns the single NUMBER token .1.2. -/
theorem C6_witness :
    (OldLexer.nextTokenF 4 (newLexer (".89".toList))).1 =
      ⟨OldLexer.NUMBER, ".89", 1, 2⟩ ∧
    (OldLexer.nextTokenF 6 (newLexer (".1.2".toList))).1 =
      ⟨OldLexer.NUMBER, ".1.2", 1, 2⟩ := by
  constructor
  · exact C6_theorem.1 3 (newLexer (".89".toList)) '8' ['9'] []
      ⟨rfl, rfl⟩ (by decide) (by decide) (by decide) (by decide) (by decide) (by decide)
  · exact C6_theorem.2 5 (newLexer (".1.2".toList)) '1' [] ['2'] []
      ⟨rfl, rfl⟩ (by decide) (by decide) (by decide) (by decide) (by decide) (by decide)

end Ejecs

namespace Ejecs

/-- In the old lexer, lookupIdent never returns a punctuation or operator
kind. -/
theorem lookupIdent_not_punct (s : String) :
    OldLexer.lookupIdent s ∉ OldLexer.punctOpTypes := by
  unfold OldLexer.lookupIdent
  split_ifs <;> decide

set_option maxHeartbeats 1000000 in
/-- Every token of a punctuation or operator kind produced by the old
lexer carries the zeroed position: these tokens are built by newToken or
by the two-character operator struct literals, whose Line and Column stay
at the Go zero value. -/
theorem oldPunctZero : ∀ (f : Nat) (l : LexState),
    OldLexer.PunctZero (OldLexer.nextTokenF f l).1 := by
  intro f
  induction f with
  | zero =>
    exact fun l h =>
      absurd h (show OldLexer.ILLEGAL ∉ OldLexer.punctOpTypes by decide)
  | succ f ih =>
    intro l
    unfold OldLexer.nextTokenF
    dsimp only
    generalize skipWhitespace f l = m
    by_cases h1 : m.ch = ':'
    · rw [if_pos h1]; exact fun _ => ⟨rfl, rfl⟩
    rw [if_neg h1]
    by_cases h2 : m.ch = ';'
    · rw [if_pos h2]; exact fun _ => ⟨rfl, rfl⟩
    rw [if_neg h2]
    by_cases h3 : m.ch = ','
    · rw [if_pos h3]; exact fun _ => ⟨rfl, rfl⟩
    rw [if_neg h3]
    by_cases h4 : m.ch = '('
    · rw [if_pos h4]; exact fun _ => ⟨rfl, rfl⟩
    rw [if_neg h4]
    by_cases h5 : m.ch = ')'
    · rw [if_pos h5]; exact fun _ => ⟨rfl, rfl⟩
    rw [if_neg h5]
    by_cases h6 : m.ch = Char.ofNat 123
    · rw [if_pos h6]; exact fun _ => ⟨rfl, rfl⟩
    rw [if_neg h6]
    by_cases h7 : m.ch = Char.ofNat 125
    · rw [if_pos h7]; exact fun _ => ⟨rfl, rfl⟩
    rw [if_neg h7]
    by_cases h8 : m.ch = '*'
    · rw [if_pos h8]; exact fun _ => ⟨rfl, rfl⟩
    rw [if_neg h8]
    by_cases h9 : m.ch = '.'
    · rw [if_pos h9]
      by_cases h9b : isDigit (peekChar m) = true
      · rw [if_pos h9b]
        exact fun h => absurd h (show OldLexer.NUMBER ∉ OldLexer.punctOpTypes by decide)
      · rw [if_neg h9b]; exact fun _ => ⟨rfl, rfl⟩
    rw [if_neg h9]
    by_cases h10 : m.ch = '+'
    · rw [if_pos h10]
      exact fun _ => ⟨by split <;> rfl, by split <;> rfl⟩
    rw [if_neg h10]
    by_cases h11 : m.ch = '-'
    · rw [if_pos h11]; exact fun _ => ⟨rfl, rfl⟩
    rw [if_neg h11]
    by_cases h12 : m.ch = '/'
    · rw [if_pos h12]
      by_cases h12b : peekChar m = '/'
      · rw [if_pos h12b]; exact ih _
      · rw [if_neg h12b]; exact fun _ => ⟨rfl, rfl⟩
    rw [if_neg h12]
    by_cases h13 : m.ch = '='
    · rw [if_pos h13]
      exact fun _ => ⟨by split <;> rfl, by split <;> rfl⟩
    rw [if_neg h13]
    by_cases h14 : m.ch = '!'
    · rw [if_pos h14]
      exact fun _ => ⟨by split <;> rfl, by split <;> rfl⟩
    rw [if_neg h14]
    by_cases h15 : m.ch = '<'
    · rw [if_pos h15]
      exact fun _ => ⟨by split <;> rfl, by split <;> rfl⟩
    rw [if_neg h15]
    by_cases h16 : m.ch = '>'
    · rw [if_pos h16]
      exact fun _ => ⟨by split <;> rfl, by split <;> rfl⟩
    rw [if_neg h16]
    by_cases h17 : m.ch = '&'
    · rw [if_pos h17]
      exact fun _ => ⟨by split <;> rfl, by split <;> rfl⟩
    rw [if_neg h17]
    by_cases h18 : m.ch = '|'
    · rw [if_pos h18]
      exact fun _ => ⟨by split <;> rfl, by split <;> rfl⟩
    rw [if_neg h18]
    by_cases h19 : m.ch = '@'
    · rw [if_pos h19]; exact fun _ => ⟨rfl, rfl⟩
    rw [if_neg h19]
    by_cases h20 : m.ch = '?'
    · rw [if_pos h20]; exact fun _ => ⟨rfl, rfl⟩
    rw [if_neg h20]
    by_cases h21 : m.ch = NUL
    · rw [if_pos h21]
      exact fun h => absurd h (show OldLexer.EOF ∉ OldLexer.punctOpTypes by decide)
    rw [if_neg h21]
    by_cases h22 : isLetter m.ch = true
    · rw [if_pos h22]
      exact fun h => absurd h (lookupIdent_not_punct _)
    rw [if_neg h22]
    by_cases h23 : isDigit m.ch = true
    · rw [if_pos h23]
      intro h
      exfalso
      revert h
      split
      · exact fun h => absurd h (show OldLexer.IDENT ∉ OldLexer.punctOpTypes by decide)
      · exact fun h => absurd h (show OldLexer.NUMBER ∉ OldLexer.punctOpTypes by decide)
    rw [if_neg h23]
    exact fun h => absurd h (show OldLexer.ILLEGAL ∉ OldLexer.punctOpTypes by decide)

/-- A NextToken call of the old lexer whose state stands on a letter
returns a token carrying exactly that state's line and column (the
identifier branch records the position before reading the word). -/
theorem oldLetterPos : ∀ (f : Nat) (l : LexState), isLetter l.ch = true →
    (OldLexer.nextTokenF (f+1) l).1.line = l.line ∧
    (OldLexer.nextTokenF (f+1) l).1.column = l.column := by
  intro f l h
  have hskip : skipWhitespace f l = l := chLoop_nop isWs f l (not_ws_of_letter l.ch h)
  have hne : ∀ x : Char, isLetter x = false → ¬(l.ch = x) :=
    fun x hx => ne_of_isLetter l.ch x h hx
  simp only [OldLexer.nextTokenF, hskip]
  rw [if_neg (hne ':' (by decide)), if_neg (hne ';' (by decide)),
    if_neg (hne ',' (by decide)), if_neg (hne '(' (by decide)),
    if_neg (hne ')' (by decide)), if_neg (hne (Char.ofNat 123) (by decide)),
    if_neg (hne (Char.ofNat 125) (by decide)), if_neg (hne '*' (by decide)),
    if_neg (hne '.' (by decide)), if_neg (hne '+' (by decide)),
    if_neg (hne '-' (by decide)), if_neg (hne '/' (by decide)),
    if_neg (hne '=' (by decide)), if_neg (hne '!' (by decide)),
    if_neg (hne '<' (by decide)), if_neg (hne '>' (by decide)),
    if_neg (hne '&' (by decide)), if_neg (hne '|' (by decide)),
    if_neg (hne '@' (by decide)), if_neg (hne '?' (by decide)),
    if_neg (hne NUL (by decide))]
  rw [if_pos h]
  exact ⟨rfl, rfl⟩

/-- A NextToken call of the old lexer whose state stands on a digit
returns a token carrying exactly that state's line and column (both the
NUMBER and the folded-identifier outcome record the position before the
run). -/
theorem oldDigitPos : ∀ (f : Nat) (l : LexState), isDigit l.ch = true →
    (OldLexer.nextTokenF (f+1) l).1.line = l.line ∧
    (OldLexer.nextTokenF (f+1) l).1.column = l.column := by
  intro f l h
  have hskip : skipWhitespace f l = l := chLoop_nop isWs f l (not_ws_of_digit l.ch h)
  have hne : ∀ x : Char, isDigit x = false → ¬(l.ch = x) :=
    fun x hx => ne_of_isDigit l.ch x h hx
  simp only [OldLexer.nextTokenF, hskip]
  rw [if_neg (hne ':' (by decide)), if_neg (hne ';' (by decide)),
    if_neg (hne ',' (by decide)), if_neg (hne '(' (by decide)),
    if_neg (hne ')' (by decide)), if_neg (hne (Char.ofNat 123) (by decide)),
    if_neg (hne (Char.ofNat 125) (by decide)), if_neg (hne '*' (by decide)),
    if_neg (hne '.' (by decide)), if_neg (hne '+' (by decide)),
    if_neg (hne '-' (by decide)), if_neg (hne '/' (by decide)),
    if_neg (hne '=' (by decide)), if_neg (hne '!' (by decide)),
    if_neg (hne '<' (by decide)), if_neg (hne '>' (by decide)),
    if_neg (hne '&' (by decide)), if_neg (hne '|' (by decide)),
    if_neg (hne '@' (by decide)), if_neg (hne '?' (by decide)),
    if_neg (hne NUL (by decide))]
  rw [if_neg (by rw [not_letter_of_digit l.ch h]; exact Bool.false_ne_true)]
  rw [if_pos h]
  constructor
  · split <;> rfl
  · split <;> rfl

/-- A NextToken call of the old lexer whose state stands on the NUL
sentinel returns the EOF token carrying exactly that state's line and
column. -/
theorem oldNulPos : ∀ (f : Nat) (l : LexState), l.ch = NUL →
    (OldLexer.nextTokenF (f+1) l).1 = ⟨OldLexer.EOF, "", l.line, l.column⟩ := by
  intro f l h
  have hskip : skipWhitespace f l = l := chLoop_nop isWs f l (by rw [h]; decide)
  simp only [OldLexer.nextTokenF, hskip]
  rw [if_neg (by rw [h]; decide), if_neg (by rw [h]; decide),
    if_neg (by rw [h]; decide), if_neg (by rw [h]; decide),
    if_neg (by rw [h]; decide), if_neg (by rw [h]; decide),
    if_neg (by rw [h]; decide), if_neg (by rw [h]; decide),
    if_neg (by rw [h]; decide), if_neg (by rw [h]; decide),
    if_neg (by rw [h]; decide), if_neg (by rw [h]; decide),
    if_neg (by rw [h]; decide), if_neg (by rw [h]; decide),
    if_neg (by rw [h]; decide), if_neg (by rw [h]; decide),
    if_neg (by rw [h]; decide), if_neg (by rw [h]; decide),
    if_neg (by rw [h]; decide), if_neg (by rw [h]; decide)]
  rw [if_pos h]

/-- C10: in the old self-contained lexer, every punctuation or operator
token (the kinds produced through newToken and the two-character operator
literals) carries Line 0 and Column 0, because the position recorded at
the start of NextToken is overwritten by the newToken struct literal;
whereas a token produced from a state standing on a letter (an identifier
or keyword token), on a digit (a number or folded-identifier token), or on
the end-of-input sentinel (the EOF token) carries exactly the recorded
line and column of that state. -/
theorem C10_theorem :
    (∀ (f : Nat) (l : LexState),
      (OldLexer.nextTokenF f l).1.type ∈ OldLexer.punctOpTypes →
      (OldLexer.nextTokenF f l).1.line = 0 ∧ (OldLexer.nextTokenF f l).1.column = 0) ∧

    (∀ (f : Nat) (l : LexState), isLetter l.ch = true →
      (OldLexer.nextTokenF (f+1) l).1.line = l.line ∧
      (OldLexer.nextTokenF (f+1) l).1.column = l.column) ∧
    (∀ (f : Nat) (l : LexState), isDigit l.ch = true →
      (OldLexer.nextTokenF (f+1) l).1.line = l.line ∧
      (OldLexer.nextTokenF (f+1) l).1.column = l.column) ∧
    (∀ (f : Nat) (l : LexState), l.ch = NUL →
      (OldLexer.nextTokenF (f+1) l).1 = ⟨OldLexer.EOF, "", l.line, l.column⟩) :=
  ⟨oldPunctZero, oldLetterPos, oldDigitPos, oldNulPos⟩

/-- C10, witness: the colon token of the old lexer carries position 0/0,
while an identifier, a number and the EOF token each carry the recorded
position (line 1; column 2, since the constructor pre-reads the first
character). -/
theorem C10_witness :
    ((OldLexer.nextTokenF 3 (newLexer (":".toList))).1.line = 0 ∧
     (OldLexer.nextTokenF 3 (newLexer (":".toList))).1.column = 0) ∧
    ((OldLexer.nextTokenF 3 (newLexer ("ab".toList))).1.line = 1 ∧
     (OldLexer.nextTokenF 3 (newLexer ("ab".toList))).1.column = 2) ∧
    ((OldLexer.nextTokenF 3 (newLexer ("7".toList))).1.line = 1 ∧
     (OldLexer.nextTokenF 3 (newLexer ("7".toList))).1.column = 2) ∧
    ((OldLexer.nextTokenF 3 (newLexer ("".toList))).1 = ⟨OldLexer.EOF, "", 1, 2⟩) := by
  refine ⟨C10_theorem.1 3 (newLexer (":".toList)) (by decide), ?_, ?_, ?_⟩
  · exact C10_theorem.2.1 2 (newLexer ("ab".toList)) (by decide)
  · exact C10_theorem.2.2.1 2 (newLexer ("7".toList)) (by decide)
  · exact C10_theorem.2.2.2 2 (newLexer ("".toList)) (by decide)

end Ejecs

namespace Ejecs

/-- getD at a valid index is an element of the list. -/
theorem getD_mem (xs : List Char) (p : Nat) (d : Char) (h : p < xs.length) :
    xs.getD p d ∈ xs := by
  induction xs generalizing p with
  | nil => simp at h
  | cons x xs ih =>
    cases p with
    | zero => exact List.mem_cons_self x xs
    | succ p =>
      exact List.mem_cons_of_mem x (ih p (by simpa using h))

end Ejecs

namespace Ejecs.Lexer

set_option maxHeartbeats 1600000 in
/-- The current lexer's lookupIdent never yields the EOF kind. -/
theorem lookupIdent_ne_eof (s : String) : lookupIdent s ≠ TokenTy.EOF := by
  intro h
  unfold lookupIdent at h
  by_cases h0 : s = "component"
  · rw [if_pos h0] at h; exact absurd h (by decide)
  rw [if_neg h0] at h
  by_cases h1 : s = "system"
  · rw [if_pos h1] at h; exact absurd h (by decide)
  rw [if_neg h1] at h
  by_cases h2 : s = "relationship"
  · rw [if_pos h2] at h; exact absurd h (by decide)
  rw [if_neg h2] at h
  by_cases h3 : s = "true"
  · rw [if_pos h3] at h; exact absurd h (by decide)
  rw [if_neg h3] at h
  by_cases h4 : s = "false"
  · rw [if_pos h4] at h; exact absurd h (by decide)
  rw [if_neg h4] at h
  by_cases h5 : s = "nil"
  · rw [if_pos h5] at h; exact absurd h (by decide)
  rw [if_neg h5] at h
  by_cases h6 : s = "query"
  · rw [if_pos h6] at h; exact absurd h (by decide)
  rw [if_neg h6] at h
  by_cases h7 : s = "parameters"
  · rw [if_pos h7] at h; exact absurd h (by decide)
  rw [if_neg h7] at h
  by_cases h8 : s = "frequency"
  · rw [if_pos h8] at h; exact absurd h (by decide)
  rw [if_neg h8] at h
  by_cases h9 : s = "priority"
  · rw [if_pos h9] at h; exact absurd h (by decide)
  rw [if_neg h9] at h
  by_cases h10 : s = "code"
  · rw [if_pos h10] at h; exact absurd h (by decide)
  rw [if_neg h10] at h
  by_cases h11 : s = "pair"
  · rw [if_pos h11] at h; exact absurd h (by decide)
  rw [if_neg h11] at h
  by_cases h12 : s = "table"
  · rw [if_pos h12] at h; exact absurd h (by decide)
  rw [if_neg h12] at h
  by_cases h13 : s = "Instance"
  · rw [if_pos h13] at h; exact absurd h (by decide)
  rw [if_neg h13] at h
  by_cases h14 : s = "Vector2"
  · rw [if_pos h14] at h; exact absurd h (by decide)
  rw [if_neg h14] at h
  by_cases h15 : s = "Vector3"
  · rw [if_pos h15] at h; exact absurd h (by decide)
  rw [if_neg h15] at h
  by_cases h16 : s = "CFrame"
  · rw [if_pos h16] at h; exact absurd h (by decide)
  rw [if_neg h16] at h
  by_cases h17 : s = "Color3"
  · rw [if_pos h17] at h; exact absurd h (by decide)
  rw [if_neg h17] at h
  by_cases h18 : s = "Enum"
  · rw [if_pos h18] at h; exact absurd h (by decide)
  rw [if_neg h18] at h
  exact absurd h (by decide)

/-- readNumberLoop preserves the input. -/
theorem readNumberLoop_input (f : Nat) : ∀ (l : LexState),
    (readNumberLoop f l).input = l.input := by
  induction f with
  | zero => exact fun l => rfl
  | succ f ih =>
    intro l
    unfold readNumberLoop
    split
    · rw [ih (readChar l), Ejecs.readChar_input]
    · rfl

/-- readNumberLoop preserves well-formedness. -/
theorem readNumberLoop_wf (f : Nat) : ∀ (l : LexState), wf l →
    wf (readNumberLoop f l) := by
  induction f with
  | zero => exact fun l h => h
  | succ f ih =>
    intro l h
    unfold readNumberLoop
    split
    · exact ih (readChar l) (Ejecs.wf_readChar l)
    · exact h

/-- readString leaves the input unchanged. -/
theorem readString_input (f : Nat) : ∀ (q : Char) (acc : List Char) (l : LexState),
    (readString f q acc l).2.input = l.input := by
  induction f with
  | zero => exact fun q acc l => rfl
  | succ f ih =>
    intro q acc l
    unfold readString
    dsimp only
    split
    · rw [ih _ _ (readChar (readChar l)), Ejecs.readChar_input, Ejecs.readChar_input]
    split
    · rw [Ejecs.readChar_input]
    · rw [ih _ _ (readChar l), Ejecs.readChar_input]

/-- readString preserves well-formedness. -/
theorem readString_wf (f : Nat) : ∀ (q : Char) (acc : List Char) (l : LexState), wf l →
    wf (readString f q acc l).2 := by
  induction f with
  | zero => exact fun q acc l h => h
  | succ f ih =>
    intro q acc l _
    unfold readString
    dsimp only
    split
    · exact ih _ _ (readChar (readChar l)) (Ejecs.wf_readChar _)
    split
    · exact Ejecs.wf_readChar l
    · exact ih _ _ (readChar l) (Ejecs.wf_readChar l)

end Ejecs.Lexer

namespace Ejecs.Lexer

/-- skipComment never changes the input. -/
theorem skipComment_input (f : Nat) (l : LexState) :
    (Ejecs.skipComment f l).input = l.input :=
  Ejecs.chLoop_input _ _ _

/-- skipComment preserves well-formedness. -/
theorem skipComment_wf (f : Nat) (l : LexState) (h : wf l) :
    wf (Ejecs.skipComment f l) :=
  Ejecs.chLoop_wf _ _ _ h

set_option maxHeartbeats 4000000 in
/-- Combined stepping facts for NextToken of the current lexer: the input
is never changed, well-formedness of the state is preserved, and (for a
NUL-free input) a returned EOF-kind token means the new state is at or
past the end of the input. -/
theorem nextTokenF_spec : ∀ (f : Nat) (l : LexState),
    (nextTokenF f l).2.input = l.input ∧
    (wf l → wf (nextTokenF f l).2) ∧
    (wf l → NULfree l.input → (nextTokenF f l).1.type = TokenTy.EOF →
      atEnd (nextTokenF f l).2) := by
  intro f
  induction f with
  | zero =>
    exact fun l => ⟨rfl, id,
      fun _ _ h => absurd h (show TokenTy.ILLEGAL ≠ TokenTy.EOF by decide)⟩
  | succ f ih =>
    intro l
    unfold nextTokenF
    dsimp only
    generalize hm : skipWhitespace f l = m
    have hmi : m.input = l.input := by rw [← hm]; exact Ejecs.chLoop_input _ _ _
    have hmw : wf l → wf m := fun h => by rw [← hm]; exact Ejecs.chLoop_wf _ _ _ h
    by_cases h1 : m.ch = '='
    · rw [if_pos h1]
      by_cases h1b : peekChar m = '='
      · rw [if_pos h1b]
        exact ⟨by rw [Ejecs.readChar_input, Ejecs.readChar_input, hmi], fun _ => Ejecs.wf_readChar _, fun _ _ h => absurd h (show TokenTy.EQT ≠ TokenTy.EOF by decide)⟩
      · rw [if_neg h1b]
        exact ⟨by rw [Ejecs.readChar_input, hmi], fun _ => Ejecs.wf_readChar _, fun _ _ h => absurd h (show TokenTy.ASSIGN ≠ TokenTy.EOF by decide)⟩
    rw [if_neg h1]
    by_cases h2 : m.ch = '!'
    · rw [if_pos h2]
      by_cases h2b : peekChar m = '='
      · rw [if_pos h2b]
        exact ⟨by rw [Ejecs.readChar_input, Ejecs.readChar_input, hmi], fun _ => Ejecs.wf_readChar _, fun _ _ h => absurd h (show TokenTy.NOT_EQ ≠ TokenTy.EOF by decide)⟩
      · rw [if_neg h2b]
        exact ⟨by rw [Ejecs.readChar_input, hmi], fun _ => Ejecs.wf_readChar _, fun _ _ h => absurd h (show TokenTy.BANG ≠ TokenTy.EOF by decide)⟩
    rw [if_neg h2]
    by_cases h3 : m.ch = '<'
    · rw [if_pos h3]
      by_cases h3b : peekChar m = '='
      · rw [if_pos h3b]
        exact ⟨by rw [Ejecs.readChar_input, Ejecs.readChar_input, hmi], fun _ => Ejecs.wf_readChar _, fun _ _ h => absurd h (show TokenTy.LTE ≠ TokenTy.EOF by decide)⟩
      · rw [if_neg h3b]
        exact ⟨by rw [Ejecs.readChar_input, hmi], fun _ => Ejecs.wf_readChar _, fun _ _ h => absurd h (show TokenTy.LTT ≠ TokenTy.EOF by decide)⟩
    rw [if_neg h3]
    by_cases h4 : m.ch = '>'
    · rw [if_pos h4]
      by_cases h4b : peekChar m = '='
      · rw [if_pos h4b]
        exact ⟨by rw [Ejecs.readChar_input, Ejecs.readChar_input, hmi], fun _ => Ejecs.wf_readChar _, fun _ _ h => absurd h (show TokenTy.GTE ≠ TokenTy.EOF by decide)⟩
      · rw [if_neg h4b]
        exact ⟨by rw [Ejecs.readChar_input, hmi], fun _ => Ejecs.wf_readChar _, fun _ _ h => absurd h (show TokenTy.GTT ≠ TokenTy.EOF by decide)⟩
    rw [if_neg h4]
    by_cases h5 : m.ch = '+'
    · rw [if_pos h5]
      by_cases h5b : peekChar m = '='
      · rw [if_pos h5b]
        exact ⟨by rw [Ejecs.readChar_input, Ejecs.readChar_input, hmi], fun _ => Ejecs.wf_readChar _, fun _ _ h => absurd h (show TokenTy.PLUSEQ ≠ TokenTy.EOF by decide)⟩
      · rw [if_neg h5b]
        exact ⟨by rw [Ejecs.readChar_input, hmi], fun _ => Ejecs.wf_readChar _, fun _ _ h => absurd h (show TokenTy.PLUS ≠ TokenTy.EOF by decide)⟩
    rw [if_neg h5]
    by_cases h6 : m.ch = '&'
    · rw [if_pos h6]
      by_cases h6b : peekChar m = '&'
      · rw [if_pos h6b]
        exact ⟨by rw [Ejecs.readChar_input, Ejecs.readChar_input, hmi], fun _ => Ejecs.wf_readChar _, fun _ _ h => absurd h (show TokenTy.ANDT ≠ TokenTy.EOF by decide)⟩
      · rw [if_neg h6b]
        exact ⟨by rw [Ejecs.readChar_input, hmi], fun _ => Ejecs.wf_readChar _, fun _ _ h => absurd h (show TokenTy.ILLEGAL ≠ TokenTy.EOF by decide)⟩
    rw [if_neg h6]
    by_cases h7 : m.ch = '|'
    · rw [if_pos h7]
      by_cases h7b : peekChar m = '|'
      · rw [if_pos h7b]
        exact ⟨by rw [Ejecs.readChar_input, Ejecs.readChar_input, hmi], fun _ => Ejecs.wf_readChar _, fun _ _ h => absurd h (show TokenTy.ORT ≠ TokenTy.EOF by decide)⟩
      · rw [if_neg h7b]
        exact ⟨by rw [Ejecs.readChar_input, hmi], fun _ => Ejecs.wf_readChar _, fun _ _ h => absurd h (show TokenTy.ILLEGAL ≠ TokenTy.EOF by decide)⟩
    rw [if_neg h7]
    by_cases h8 : m.ch = '/'
    · rw [if_pos h8]
      by_cases h8b : peekChar m = '/'
      · rw [if_pos h8b]
        refine ⟨?_, ?_, ?_⟩
        · rw [(ih (skipComment f m)).1, skipComment_input, hmi]
        · exact fun hw => (ih (skipComment f m)).2.1 (skipComment_wf _ _ (hmw hw))
        · intro hw hn h
          exact (ih (skipComment f m)).2.2 (skipComment_wf _ _ (hmw hw))
            (by rw [skipComment_input, hmi]; exact hn) h
      · rw [if_neg h8b]
        exact ⟨by rw [Ejecs.readChar_input, hmi], fun _ => Ejecs.wf_readChar _, fun _ _ h => absurd h (show TokenTy.SLASH ≠ TokenTy.EOF by decide)⟩
    rw [if_neg h8]
    by_cases h9 : m.ch = '-'
    · rw [if_pos h9]
      exact ⟨by rw [Ejecs.readChar_input, hmi], fun _ => Ejecs.wf_readChar _, fun _ _ h => absurd h (show TokenTy.MINUS ≠ TokenTy.EOF by decide)⟩
    rw [if_neg h9]
    by_cases h10 : m.ch = '*'
    · rw [if_pos h10]
      exact ⟨by rw [Ejecs.readChar_input, hmi], fun _ => Ejecs.wf_readChar _, fun _ _ h => absurd h (show TokenTy.ASTERISK ≠ TokenTy.EOF by decide)⟩
    rw [if_neg h10]
    by_cases h11 : m.ch = '.'
    · rw [if_pos h11]
      exact ⟨by rw [Ejecs.readChar_input, hmi], fun _ => Ejecs.wf_readChar _, fun _ _ h => absurd h (show TokenTy.DOT ≠ TokenTy.EOF by decide)⟩
    rw [if_neg h11]
    by_cases h12 : m.ch = ','
    · rw [if_pos h12]
      exact ⟨by rw [Ejecs.readChar_input, hmi], fun _ => Ejecs.wf_readChar _, fun _ _ h => absurd h (show TokenTy.COMMA ≠ TokenTy.EOF by decide)⟩
    rw [if_neg h12]
    by_cases h13 : m.ch = ';'
    · rw [if_pos h13]
      exact ⟨by rw [Ejecs.readChar_input, hmi], fun _ => Ejecs.wf_readChar _, fun _ _ h => absurd h (show TokenTy.SEMICOLON ≠ TokenTy.EOF by decide)⟩
    rw [if_neg h13]
    by_cases h14 : m.ch = ':'
    · rw [if_pos h14]
      exact ⟨by rw [Ejecs.readChar_input, hmi], fun _ => Ejecs.wf_readChar _, fun _ _ h => absurd h (show TokenTy.COLON ≠ TokenTy.EOF by decide)⟩
    rw [if_neg h14]
    by_cases h15 : m.ch = '('
    · rw [if_pos h15]
      exact ⟨by rw [Ejecs.readChar_input, hmi], fun _ => Ejecs.wf_readChar _, fun _ _ h => absurd h (show TokenTy.LPAREN ≠ TokenTy.EOF by decide)⟩
    rw [if_neg h15]
    by_cases h16 : m.ch = ')'
    · rw [if_pos h16]
      exact ⟨by rw [Ejecs.readChar_input, hmi], fun _ => Ejecs.wf_readChar _, fun _ _ h => absurd h (show TokenTy.RPAREN ≠ TokenTy.EOF by decide)⟩
    rw [if_neg h16]
    by_cases h17 : m.ch = Char.ofNat 123
    · rw [if_pos h17]
      exact ⟨by rw [Ejecs.readChar_input, hmi], fun _ => Ejecs.wf_readChar _, fun _ _ h => absurd h (show TokenTy.LBRACE ≠ TokenTy.EOF by decide)⟩
    rw [if_neg h17]
    by_cases h18 : m.ch = Char.ofNat 125
    · rw [if_pos h18]
      exact ⟨by rw [Ejecs.readChar_input, hmi], fun _ => Ejecs.wf_readChar _, fun _ _ h => absurd h (show TokenTy.RBRACE ≠ TokenTy.EOF by decide)⟩
    rw [if_neg h18]
    by_cases h19 : m.ch = '@'
    · rw [if_pos h19]
      exact ⟨by rw [Ejecs.readChar_input, hmi], fun _ => Ejecs.wf_readChar _, fun _ _ h => absurd h (show TokenTy.AT ≠ TokenTy.EOF by decide)⟩
    rw [if_neg h19]
    by_cases h20 : m.ch = '?'
    · rw [if_pos h20]
      exact ⟨by rw [Ejecs.readChar_input, hmi], fun _ => Ejecs.wf_readChar _, fun _ _ h => absurd h (show TokenTy.QUESTION ≠ TokenTy.EOF by decide)⟩
    rw [if_neg h20]
    by_cases h21 : m.ch = '['
    · rw [if_pos h21]
      exact ⟨by rw [Ejecs.readChar_input, hmi], fun _ => Ejecs.wf_readChar _, fun _ _ h => absurd h (show TokenTy.LBRACKET ≠ TokenTy.EOF by decide)⟩
    rw [if_neg h21]
    by_cases h22 : m.ch = ']'
    · rw [if_pos h22]
      exact ⟨by rw [Ejecs.readChar_input, hmi], fun _ => Ejecs.wf_readChar _, fun _ _ h => absurd h (show TokenTy.RBRACKET ≠ TokenTy.EOF by decide)⟩
    rw [if_neg h22]
    by_cases h23 : (m.ch = DQ || m.ch = SQ : Bool) = true
    · rw [if_pos h23]
      refine ⟨?_, ?_,
        fun _ _ hx => absurd hx (show TokenTy.STRINGT ≠ TokenTy.EOF by decide)⟩
      · show (if _ then readChar (readString f m.ch [] m).2
            else (readString f m.ch [] m).2).input = l.input
        split
        · rw [Ejecs.readChar_input, readString_input, hmi]
        · rw [readString_input, hmi]
      · intro hw
        show wf (if _ then readChar (readString f m.ch [] m).2
            else (readString f m.ch [] m).2)
        split
        · exact Ejecs.wf_readChar _
        · exact readString_wf f m.ch [] m (hmw hw)
    rw [if_neg h23]
    by_cases h24 : m.ch = NUL
    · rw [if_pos h24]
      refine ⟨by rw [Ejecs.readChar_input, hmi], fun _ => Ejecs.wf_readChar _, ?_⟩
      intro hw hn _
      have hwm : wf m := hmw hw
      have hpos : m.input.length ≤ m.position := by
        by_contra hlt
        push_neg at hlt
        have hchar : m.ch = m.input.getD m.position NUL := by
          rw [hwm.2, Ejecs.dropHeadD]
        have hmem := Ejecs.getD_mem m.input m.position NUL hlt
        rw [← hchar, h24, hmi] at hmem
        exact absurd rfl (hn NUL hmem)
      refine ⟨Ejecs.wf_readChar m, ?_⟩
      show m.input.length ≤ m.readPosition
      rw [hwm.1]
      omega
    rw [if_neg h24]
    by_cases h25 : isLetter m.ch = true
    · rw [if_pos h25]
      refine ⟨?_, ?_, fun _ _ hx => absurd hx (lookupIdent_ne_eof _)⟩
      · show (chLoop (fun c => isLetter c || isDigit c) f m).input = l.input
        rw [Ejecs.chLoop_input, hmi]
      · exact fun hw => Ejecs.chLoop_wf _ f m (hmw hw)
    rw [if_neg h25]
    by_cases h26 : isDigit m.ch = true
    · rw [if_pos h26]
      refine ⟨?_, ?_, ?_⟩
      · show (readNumberLoop f m).input = l.input
        rw [readNumberLoop_input, hmi]
      · exact fun hw => readNumberLoop_wf f m (hmw hw)
      · intro _ _ hx
        exfalso
        revert hx
        show (if _ then TokenTy.FLOAT else TokenTy.INT) = TokenTy.EOF → False
        split
        · exact fun hx => absurd hx (show TokenTy.FLOAT ≠ TokenTy.EOF by decide)
        · exact fun hx => absurd hx (show TokenTy.INT ≠ TokenTy.EOF by decide)
    rw [if_neg h26]
    exact ⟨by rw [Ejecs.readChar_input, hmi], fun _ => Ejecs.wf_readChar _, fun _ _ h => absurd h (show TokenTy.ILLEGAL ≠ TokenTy.EOF by decide)⟩

end Ejecs.Lexer

namespace Ejecs.Lexer

/-- A NextToken call of the current lexer whose state stands on the NUL
sentinel returns the EOF token and just advances the cursor. -/
theorem nul_token (f : Nat) (l : LexState) (h : l.ch = NUL) :
    nextTokenF (f+1) l = (⟨TokenTy.EOF, "", l.line, l.column⟩, readChar l) := by
  have hskip : Ejecs.skipWhitespace f l = l :=
    Ejecs.chLoop_nop Ejecs.isWs f l (by rw [h]; decide)
  unfold nextTokenF
  dsimp only
  rw [hskip]
  rw [if_neg (by rw [h]; decide), if_neg (by rw [h]; decide),
    if_neg (by rw [h]; decide), if_neg (by rw [h]; decide),
    if_neg (by rw [h]; decide), if_neg (by rw [h]; decide),
    if_neg (by rw [h]; decide), if_neg (by rw [h]; decide),
    if_neg (by rw [h]; decide), if_neg (by rw [h]; decide),
    if_neg (by rw [h]; decide), if_neg (by rw [h]; decide),
    if_neg (by rw [h]; decide), if_neg (by rw [h]; decide),
    if_neg (by rw [h]; decide), if_neg (by rw [h]; decide),
    if_neg (by rw [h]; decide), if_neg (by rw [h]; decide),
    if_neg (by rw [h]; decide), if_neg (by rw [h]; decide),
    if_neg (by rw [h]; decide), if_neg (by rw [h]; decide),
    if_neg (by rw [h]; decide)]
  rw [if_pos h]

/-- At an at-or-past-the-end state, NextToken returns an EOF token and the
new state is again at the end. -/
theorem atEnd_step (l : LexState) (h : Ejecs.atEnd l) :
    (nextToken l).1.type = TokenTy.EOF ∧ Ejecs.atEnd (nextToken l).2 := by
  have hch : l.ch = Ejecs.NUL := by
    rw [h.1.2, List.drop_eq_nil_of_le h.2]
    rfl
  have hstep : nextToken l =
      (⟨TokenTy.EOF, "", l.line, l.column⟩, Ejecs.readChar l) := by
    rw [show nextToken l = nextTokenF (l.input.length + 1 + 1) l from rfl,
      nul_token _ _ hch]
  rw [hstep]
  refine ⟨rfl, Ejecs.wf_readChar l, ?_⟩
  show l.input.length ≤ l.readPosition
  rw [h.1.1]
  have := h.2
  omega

end Ejecs.Lexer

namespace Ejecs

/-- C8, amended: for every input that contains no NUL byte, once
next_token has returned an EOF token, every subsequent call on the same
lexer also returns an EOF token.  (On inputs containing a NUL byte the
lexer treats the NUL as its end-of-input sentinel, returns EOF there, and
then resumes; see the counterexample.) -/
theorem C8_theorem (input : List Char) (hn : NULfree input) :
    ∀ n m : Nat, n ≤ m → (Lexer.tokenAt input n).type = TokenTy.EOF →
    (Lexer.tokenAt input m).type = TokenTy.EOF := by
  have hstate : ∀ n, wf (Lexer.lexStateAt input n) ∧
      (Lexer.lexStateAt input n).input = input := by
    intro n
    induction n with
    | zero => exact ⟨wf_readChar _, rfl⟩
    | succ n ih =>
      refine ⟨(Lexer.nextTokenF_spec _ _).2.1 ih.1, ?_⟩
      show (Lexer.nextTokenF ((Lexer.lexStateAt input n).input.length + 2)
        (Lexer.lexStateAt input n)).2.input = input
      rw [(Lexer.nextTokenF_spec _ _).1, ih.2]
  have hfwd : ∀ n, (Lexer.tokenAt input n).type = TokenTy.EOF →
      atEnd (Lexer.lexStateAt input (n+1)) := by
    intro n h
    exact (Lexer.nextTokenF_spec ((Lexer.lexStateAt input n).input.length + 2)
      (Lexer.lexStateAt input n)).2.2 (hstate n).1
      (by rw [(hstate n).2]; exact hn) h
  have hpersist : ∀ n k, atEnd (Lexer.lexStateAt input n) →
      atEnd (Lexer.lexStateAt input (n + k)) := by
    intro n k
    induction k with
    | zero => exact id
    | succ k ih => exact fun h => (Lexer.atEnd_step _ (ih h)).2
  intro n m hnm heof
  rcases Nat.eq_or_lt_of_le hnm with rfl | hlt
  · exact heof
  · have h2 : atEnd (Lexer.lexStateAt input m) := by
      rw [show m = (n+1) + (m - (n+1)) from by omega]
      exact hpersist (n+1) (m - (n+1)) (hfwd n heof)
    exact (Lexer.atEnd_step _ h2).1

/-- C8, witness: for the NUL-free input a, the second call returns EOF and
so does the third. -/
theorem C8_witness :
    (Lexer.tokenAt ("a".toList) 2).type = TokenTy.EOF :=
  C8_theorem ("a".toList) (by unfold NULfree; decide) 1 2 (by decide) (by rfl)

end Ejecs
